import Mathlib

/-!
Verification of the kdb dialect-aware SQL expression compiler (src/driver.go).

The Go source in scope is `driver.go`: the dialects (`AnsiDialecter`,
`MysqlDialecter`, `PostgreSQLDialecter`), the top-level driver
(`AnsiDriver.Compile`, `compileText`, `compileProcedure`) and the recursive
statement compiler (`StatementCompiler` with its `visit*` methods).

The repository files `expression.go` (expression node types), `statement.go`
(the `sqlWriter` text accumulator) and the `ansi` constants package are not
under src/; the definitions below that come from them are modelled from the
spec and are marked `Modelled from the spec:` in their doc comments.

Modelling conventions:
 - Go `interface{}` runtime values are restricted to the closed universe
   `GoValue` (nil, int, string, int slice, string slice), which covers every
   value the claims mention.  `strconv.Itoa`/`FormatInt` becomes `toString`
   on `Int`.
 - Go nil pointers/interfaces become `Option`; a nil `Expression` is `none`.
 - A Go `panic` is modelled by an absorbing `panicked` flag in the compiler
   state: once set, every later write is a no-op, and the top-level compile
   result is `CompRes.panicked`.
 - The recursive visitor is written with an explicit fuel argument so that it
   is structurally recursive and computable by `decide`/`rfl`; the top-level
   entry points pass `sizeOf` of the tree, which is always sufficient (each
   recursive call descends to a strictly smaller subterm).
 - The compiler state carries a ghost field `trace` listing every placeholder
   token emitted, in order; it changes nothing of the query/args computation
   and exists only so that theorems can talk about emitted placeholders.
-/

/-- The closed universe of runtime values used by the compiler model:
Go `nil`, `int`/`int64`, `string`, `[]int` and `[]string`.  (`driver.go`
additionally special-cases float and untyped slices in `visitSlice`; those
kinds are not needed by any claim and are outside this universe.) -/
inductive GoValue where
  | vNil
  | vInt (i : Int)
  | vStr (s : String)
  | sInt (l : List Int)
  | sStr (l : List String)
deriving DecidableEq, Repr

/-- A scalar (non-slice) `GoValue`; `visitSlice` flattens the slice kinds and
falls through to `writeValue` for these. -/
def GoValue.isScalar : GoValue → Bool
  | .sInt _ => false
  | .sStr _ => false
  | _ => true

/-- Parameter direction (`ansi.DirIn/DirOut/DirInOut/DirReturn`).
Modelled from the spec: directions `In, Out, InOut, Return`. -/
inductive Dir where
  | din
  | dout
  | dinout
  | dret
deriving DecidableEq, Repr

/-- Structured compile errors.  `driver.go` returns `errors.New` with fixed
message strings; each constructor corresponds to one of them:
 - `nilExpression`: "compile expression is nil" (`AnsiDriver.Compile`)
 - `unsupportedNodeTop`: "compile expression does support type:<kind>"
 - `unsupportedNode`: the `StatementCompiler.Compile` default branch
 - `nilText`: "text is nil or sql of text is empty"
 - `unknownParameter`: "text can not find parameter:<name>"
 - `malformedTemplate`: "text sql format is invalid"
 - `nilProcedure`: "procedure is nil or name of procedure is empty" -/
inductive CErr where
  | nilExpression
  | unsupportedNodeTop (kind : String)
  | unsupportedNode (kind : String)
  | nilText
  | unknownParameter (name : String)
  | malformedTemplate
  | nilProcedure
deriving DecidableEq, Repr

/-- The SQL dialect contract (`Dialecter` in driver.go), restricted to the
members the compiler reads: named/indexed parameter support, the placeholder
token, and identifier quoting. -/
structure Dialecter where
  supportNamed : Bool
  supportIndexed : Bool
  placeHolder : String
  quote : String → String

/-- Single quote character, kept out of string literals. -/
def squo : String := (Char.ofNat 39).toString

/-- `AnsiDialecter`: no named/indexed support, placeholder `" ? "`
(note the surrounding spaces in `ParameterPlaceHolder`), quoting with
single quotes. -/
def AnsiDialecter : Dialecter :=
  { supportNamed := false
    supportIndexed := false
    placeHolder := " ? "
    quote := fun s => squo ++ s ++ squo }

/-- `MysqlDialecter` embeds `AnsiDialecter` and overrides only the
schema-query builders, so its compiler-relevant behaviour is identical. -/
def MysqlDialecter : Dialecter := AnsiDialecter

/-- `PostgreSQLDialecter`: embeds `AnsiDialecter`, overrides
`SupportIndexedParameter` to true and `ParameterPlaceHolder` to `"$"`. -/
def PostgreSQLDialecter : Dialecter :=
  { AnsiDialecter with supportIndexed := true, placeHolder := "$" }

/-- A dialect with named-parameter support.  No built-in dialect of
driver.go enables `SupportNamedParameter`; this one exists to exercise
mode 1 of `writeValue`/`compileText`, which the claims quantify over. -/
def NamedTestDialecter : Dialecter :=
  { AnsiDialecter with supportNamed := true, placeHolder := "@" }

/-- Placeholder mode, computed identically in `writeValue` and
`compileText`: named support takes priority over indexed
(mode 1), then indexed (mode 2), else positional (mode 0). -/
def modeOf (d : Dialecter) : Nat :=
  if d.supportNamed then 1 else if d.supportIndexed then 2 else 0

/- Modelled from the spec: the `ansi` constants package (keywords and
punctuation used by the statement compiler).  The exact strings follow the
concrete renderings the spec requires (for instance
`SELECT * FROM t LIMIT 10,5` and `IN (v1,v2,v3)`). -/
namespace ansi

def Null : String := "NULL"
def Select : String := "SELECT"
def Distinct : String := "DISTINCT"
def From : String := "FROM"
def Where : String := "WHERE"
def GroupBy : String := "GROUP BY"
def Having : String := "HAVING"
def OrderBy : String := "ORDER BY"
def Limit : String := "LIMIT"
def InsertInto : String := "INSERT INTO"
def Values : String := "VALUES"
def Update : String := "UPDATE"
def Set : String := "SET"
def Delete : String := "DELETE"
def As : String := "AS"
def On : String := "ON"
def WildcardAll : String := "*"
def StatementSplit : String := ";"
def Blank : String := " "
def LineBreak : String := "\n"
def Equals : String := "="
def In : String := "IN"
def NotIn : String := "NOT IN"

end ansi

/-- Modelled from the spec: `Table` is a name plus an optional alias. -/
structure TableE where
  name : String
  als : String
deriving DecidableEq, Repr

/-- Modelled from the spec: `Text` is a raw SQL string with brace
placeholders plus a name-to-parameter map (here an association list;
`FindParameter` is lookup by exact name). -/
structure TextE where
  sql : String
  parameters : List (String × GoValue)
deriving DecidableEq, Repr

/-- Modelled from the spec: a procedure `Parameter` carries a name, a
direction and a value. -/
structure ParamE where
  name : String
  dir : Dir
  value : GoValue
deriving DecidableEq, Repr

/-- Modelled from the spec: `Procedure` is a name plus an ordered
parameter list. -/
structure ProcE where
  name : String
  params : List ParamE
deriving DecidableEq, Repr

/-- `Parameter.IsOut`: Modelled from the spec; true for the output-carrying
directions `Out` and `InOut`. -/
def ParamE.IsOut (p : ParamE) : Bool :=
  p.dir = Dir.dout || p.dir = Dir.dinout

/-- `Procedure.ReturnParameterName`: Modelled from the spec; the name of the
designated return parameter (direction `Return`), or `""` when none. -/
def ProcE.ReturnParameterName (sp : ProcE) : String :=
  ((sp.params.find? (fun p => p.dir = Dir.dret)).map (fun p => p.name)).getD ""

mutual

/-- The expression tree (`expression.go` node kinds reached by the
statement compiler).  Modelled from the spec with the concrete shapes
`driver.go` reads:
 - `enull`, `sqlRaw`, `opRaw` are the raw-SQL-producing kinds
   (`NodeNull/NodeSql/NodeOperator`, written via `RawSqler.ToSql`);
 - `value` is a literal `*Value` (payload `vNil` models a nil payload);
 - `cond` is `*Condition` with optional left/right and an operator string;
 - the clause containers mirror the `Select/From/Join/Where/GroupBy/
   Having/OrderBy` structs (a nil `Conditions` pointer inside a container
   is collapsed into the empty list, which `isEmpty` treats identically);
 - `textE/procedureE/parameterE/outputE` are the kinds the statement
   compiler explicitly rejects with a panic. -/
inductive Exp where
  | zero
  | enull
  | sqlRaw (s : String)
  | opRaw (s : String)
  | value (v : GoValue)
  | table (t : TableE)
  | column (s : String)
  | cond (left : Option Exp) (op : String) (right : Option Exp)
  | aggregate (name : String) (e : Option Exp)
  | sel (s : SelectE)
  | fromE (f : FromE)
  | joinE (j : JoinE)
  | whereE (w : WhereE)
  | groupByE (g : GroupByE)
  | havingE (h : HavingE)
  | orderByE (o : OrderByE)
  | query (q : QueryE)
  | insert (i : InsertE)
  | update (u : UpdateE)
  | delete (d : DeleteE)
  | textE (t : TextE)
  | procedureE (p : ProcE)
  | parameterE
  | outputE

/-- A select-list `Field`: an expression plus an optional output alias. -/
inductive FieldE where
  | mk (e : Option Exp) (als : String)

/-- The `Select` clause container: an ordered field list. -/
inductive SelectE where
  | mk (fields : List FieldE)

/-- A `Join`: join-type keyword, right-hand table, condition sequence. -/
inductive JoinE where
  | mk (joinType : String) (right : Option TableE) (conds : List (Option Exp))

/-- The `From` clause: optional single table, further tables, joins. -/
inductive FromE where
  | mk (table : Option TableE) (tables : List (Option TableE)) (joins : List JoinE)

/-- The `Where` clause: an ordered condition sequence. -/
inductive WhereE where
  | mk (conds : List (Option Exp))

/-- The `GroupBy` clause: an ordered field (expression) list. -/
inductive GroupByE where
  | mk (fields : List (Option Exp))

/-- The `Having` clause: an ordered condition sequence. -/
inductive HavingE where
  | mk (conds : List (Option Exp))

/-- One `OrderBy` item: an expression plus a direction keyword. -/
inductive OrderItem where
  | mk (e : Option Exp) (dir : String)

/-- The `OrderBy` clause: an ordered item list. -/
inductive OrderByE where
  | mk (items : List OrderItem)

/-- The `Query` statement node: distinct flag, the optional clause
containers, and the two row-limiting integers `Offset`/`Count`. -/
inductive QueryE where
  | mk (distinct : Bool) (sel : Option SelectE) (frm : Option FromE)
      (whr : Option WhereE) (grp : Option GroupByE) (hav : Option HavingE)
      (ord : Option OrderByE) (offset : Int) (count : Int)

/-- One column=value pair of an `Insert`/`Update` set list. -/
inductive SetE where
  | mk (col : String) (value : Option Exp)

/-- The `Insert` statement node: table name plus set list. -/
inductive InsertE where
  | mk (table : String) (sets : List SetE)

/-- The `Update` statement node. -/
inductive UpdateE where
  | mk (table : String) (sets : List SetE) (whr : Option WhereE)
      (ord : Option OrderByE) (count : Int)

/-- The `Delete` statement node. -/
inductive DeleteE where
  | mk (table : String) (whr : Option WhereE) (ord : Option OrderByE) (count : Int)

end

/-- Modelled from the spec: the structural marker `OpenParentheses`
(a raw `Operator` node whose SQL form is `(`). -/
def OpenParentheses : Exp := Exp.opRaw "("

/-- Modelled from the spec: the structural marker `CloseParentheses`. -/
def CloseParentheses : Exp := Exp.opRaw ")"

/-- The identity comparison `item == OpenParentheses` of `visitConditions`,
modelled structurally. -/
def isOpenParen : Exp → Bool
  | .opRaw s => s = "("
  | _ => false

/-- The identity comparison `item == CloseParentheses` of `visitConditions`,
modelled structurally. -/
def isCloseParen : Exp → Bool
  | .opRaw s => s = ")"
  | _ => false

/-- `Node()` kind names, used in error/panic messages. -/
def nodeName : Exp → String
  | .zero => "Zero"
  | .enull => "Null"
  | .sqlRaw _ => "Sql"
  | .opRaw _ => "Operator"
  | .value _ => "Value"
  | .table _ => "Table"
  | .column _ => "Column"
  | .cond _ _ _ => "Condition"
  | .aggregate _ _ => "Aggregate"
  | .sel _ => "Select"
  | .fromE _ => "From"
  | .joinE _ => "Join"
  | .whereE _ => "Where"
  | .groupByE _ => "GroupBy"
  | .havingE _ => "Having"
  | .orderByE _ => "OrderBy"
  | .query _ => "Query"
  | .insert _ => "Insert"
  | .update _ => "Update"
  | .delete _ => "Delete"
  | .textE _ => "Text"
  | .procedureE _ => "Procedure"
  | .parameterE => "Parameter"
  | .outputE => "Output"

/-- The statement-compiler state (`StatementCompiler` plus its `sqlWriter`):
the dialect, the accumulated query text, the argument list, the placeholder
counter, the ghost placeholder trace, and the panic flag. -/
structure St where
  d : Dialecter
  w : String := ""
  args : List GoValue := []
  paraIndex : Nat := 0
  trace : List String := []
  panicked : Option String := none

/-- Append text to the writer (`sqlWriter.WriteString`/`Print`); a no-op
after a panic. -/
def St.wr (st : St) (s : String) : St :=
  if st.panicked.isSome then st else { st with w := st.w ++ s }

/-- Model of a Go `panic`: record the first panic message. -/
def St.goPanic (st : St) (m : String) : St :=
  if st.panicked.isSome then st else { st with panicked := some m }

/-- `StatementCompiler.writeValue`: a nil value writes the NULL keyword;
otherwise emit a placeholder whose form depends on the mode (positional:
the bare token; named or indexed: token plus the incremented counter -- the
Go mode-1 and mode-2 branches are textually identical) and append the value
to the argument list.  The ghost `trace` records the emitted placeholder. -/
def writeValue (v : GoValue) (st : St) : St :=
  if st.panicked.isSome then st
  else if v = .vNil then st.wr ansi.Null
  else if modeOf st.d = 0 then
    { st with w := st.w ++ st.d.placeHolder,
              args := st.args ++ [v],
              trace := st.trace ++ [st.d.placeHolder] }
  else
    { st with w := st.w ++ (st.d.placeHolder ++ toString (st.paraIndex + 1)),
              paraIndex := st.paraIndex + 1,
              args := st.args ++ [v],
              trace := st.trace ++ [st.d.placeHolder ++ toString (st.paraIndex + 1)] }

/-- `StatementCompiler.visitValue`: nil node or nil payload writes NULL,
otherwise `writeValue`. -/
def visitValue (v : GoValue) (st : St) : St :=
  match v with
  | .vNil => st.wr ansi.Null
  | v => writeValue v st

/-- `StatementCompiler.visitColumn`: writes the column string form. -/
def visitColumn (c : String) (st : St) : St :=
  st.wr c

/-- `StatementCompiler.visitTable`: nil or fully empty writes nothing;
name and alias present writes `name AS alias`; otherwise the non-empty one. -/
def visitTable (t : Option TableE) (st : St) : St :=
  match t with
  | none => st
  | some t =>
    if t.name = "" ∧ t.als = "" then st
    else if t.name ≠ "" ∧ t.als ≠ "" then
      st.wr (t.name ++ " " ++ ansi.As ++ " " ++ t.als)
    else if t.als = "" then st.wr t.name
    else st.wr t.als

/-- Comma-joined integer literals (`visitSlice`, `[]int` case:
`strconv.Itoa` inline, no argument binding). -/
def sliceInts : List Int → Bool → St → St
  | [], _, st => st
  | i :: rest, isFirst, st =>
    sliceInts rest false ((if isFirst then st else st.wr ",").wr (toString i))

/-- Comma-joined bound strings (`visitSlice`, `[]string` case:
each element goes through `writeValue`). -/
def sliceStrs : List String → Bool → St → St
  | [], _, st => st
  | s :: rest, isFirst, st =>
    sliceStrs rest false (writeValue (.vStr s) (if isFirst then st else st.wr ","))

/-- `StatementCompiler.visitSlice`: `[]int` elements are written inline as
literals (not bound); `[]string` elements each become a placeholder plus a
bound argument; a non-slice value falls through to `writeValue`
(the reflection default branch). -/
def visitSlice (v : GoValue) (st : St) : St :=
  match v with
  | .sInt l => sliceInts l true st
  | .sStr l => sliceStrs l true st
  | v => writeValue v st

/-- Indentation of `visitConditions` (`strings.Repeat("\t", deep)`). -/
def tabs (deep : Int) : String :=
  String.mk (List.replicate deep.toNat (Char.ofNat 9))


mutual

/-- Fuel measure for the visitor: a positive size of an optional node. -/
def szOE : Option Exp → Nat
  | none => 1
  | some e => 1 + szE e

/-- Fuel measure for the visitor: a positive size of a node.  Every
recursive visitor call strictly decreases it, so fuel `szE e` never runs
out when compiling `e`. -/
def szE : Exp → Nat
  | .zero => 1
  | .enull => 1
  | .sqlRaw _ => 1
  | .opRaw _ => 1
  | .value _ => 1
  | .table _ => 1
  | .column _ => 1
  | .cond l _ r => 1 + szOE l + szOE r
  | .aggregate _ e => 1 + szOE e
  | .sel s => 1 + szSel s
  | .fromE fr => 1 + szFrom fr
  | .joinE j => 1 + szJ j
  | .whereE w => 1 + szW w
  | .groupByE g => 1 + szG g
  | .havingE h => 1 + szH h
  | .orderByE o => 1 + szOB o
  | .query q => 1 + szQ q
  | .insert i => 1 + szIns i
  | .update u => 1 + szUpd u
  | .delete d => 1 + szDel d
  | .textE _ => 1
  | .procedureE _ => 1
  | .parameterE => 1
  | .outputE => 1

def szCL : List (Option Exp) → Nat
  | [] => 1
  | x :: rest => 1 + szOE x + szCL rest

def szF : FieldE → Nat
  | .mk e _ => 1 + szOE e

def szFL : List FieldE → Nat
  | [] => 1
  | x :: rest => 1 + szF x + szFL rest

def szSel : SelectE → Nat
  | .mk fields => 1 + szFL fields

def szOSel : Option SelectE → Nat
  | none => 1
  | some s => 1 + szSel s

def szJ : JoinE → Nat
  | .mk _ _ conds => 1 + szCL conds

def szJL : List JoinE → Nat
  | [] => 1
  | j :: rest => 1 + szJ j + szJL rest

def szFrom : FromE → Nat
  | .mk _ _ joins => 1 + szJL joins

def szOFrom : Option FromE → Nat
  | none => 1
  | some fr => 1 + szFrom fr

def szW : WhereE → Nat
  | .mk conds => 1 + szCL conds

def szOW : Option WhereE → Nat
  | none => 1
  | some w => 1 + szW w

def szG : GroupByE → Nat
  | .mk fields => 1 + szCL fields

def szOG : Option GroupByE → Nat
  | none => 1
  | some g => 1 + szG g

def szH : HavingE → Nat
  | .mk conds => 1 + szCL conds

def szOH : Option HavingE → Nat
  | none => 1
  | some h => 1 + szH h

def szOI : OrderItem → Nat
  | .mk e _ => 1 + szOE e

def szOIL : List OrderItem → Nat
  | [] => 1
  | x :: rest => 1 + szOI x + szOIL rest

def szOB : OrderByE → Nat
  | .mk items => 1 + szOIL items

def szOOB : Option OrderByE → Nat
  | none => 1
  | some o => 1 + szOB o

def szSet : SetE → Nat
  | .mk _ v => 1 + szOE v

def szSetL : List SetE → Nat
  | [] => 1
  | x :: rest => 1 + szSet x + szSetL rest

def szIns : InsertE → Nat
  | .mk _ sets => 1 + szSetL sets

def szUpd : UpdateE → Nat
  | .mk _ sets whr ord _ => 1 + szSetL sets + szOW whr + szOOB ord

def szDel : DeleteE → Nat
  | .mk _ whr ord _ => 1 + szOW whr + szOOB ord

def szQ : QueryE → Nat
  | .mk _ sel frm whr grp hav ord _ _ =>
    1 + szOSel sel + szOFrom frm + szOW whr + szOG grp + szOH hav + szOOB ord

end

/-- Panic message of the visitor default for unsupported node kinds
(`visitExp`: the Go source panics here). -/
def unsupMsg (kind : String) : String :=
  "doesn" ++ squo ++ "t support this expression type:" ++ kind

/-- Marker for fuel exhaustion; never reached from the entry points,
which pass `sizeOf` of the tree (see `StatementCompiler.Compile`). -/
def fuelMsg : String := "out of fuel"

/-- The per-item prefix of `visitConditions`: a line break for every item
after the first, then indentation when the current depth is positive. -/
def condItemPre (i : Nat) (deep1 : Int) (st : St) : St :=
  let st1 := if i > 0 then st.wr ansi.LineBreak else st
  if deep1 > 0 then st1.wr (tabs deep1) else st1

/-- `query.GroupBy != nil && len(query.GroupBy.Fields) > 0`. -/
def grpActive : Option GroupByE → Bool
  | none => false
  | some (.mk fields) => !fields.isEmpty

/-- The column list of `visitInsert` (no expression recursion). -/
def setColsLoop : List SetE → Bool → St → St
  | [], _, st => st
  | .mk col _ :: rest, isFirst, st =>
    setColsLoop rest false (visitColumn col (if isFirst then st else st.wr ","))

mutual

/-- `StatementCompiler.visitExp`: dispatch on the node kind.  A nil
expression writes nothing; `Zero` writes nothing; `Text/Procedure/
Parameter/Output` panic; the raw kinds write their SQL form; every other
kind dispatches to its visit method. -/
def visitExp : Nat → Option Exp → St → St
  | 0, _, st => st.goPanic fuelMsg
  | _ + 1, none, st => st
  | f + 1, some e, st =>
    match e with
    | .zero => st
    | .textE _ => st.goPanic (unsupMsg "Text")
    | .procedureE _ => st.goPanic (unsupMsg "Procedure")
    | .parameterE => st.goPanic (unsupMsg "Parameter")
    | .outputE => st.goPanic (unsupMsg "Output")
    | .enull => st.wr ansi.Null
    | .sqlRaw s => st.wr s
    | .opRaw s => st.wr s
    | .insert i => visitInsert f i st
    | .query q => visitQuery f q st
    | .update u => visitUpdate f u st
    | .delete dl => visitDelete f dl st
    | .value v => visitValue v st
    | .table t => visitTable (some t) st
    | .column c => visitColumn c st
    | .cond l op r => visitCondition f l op r st
    | .aggregate n e1 => visitAggregate f n e1 st
    | .sel s => visitSelect f s st
    | .fromE fr => visitFrom f fr st
    | .joinE j => visitJoin f j st
    | .whereE w => visitWhere f w st
    | .groupByE g => visitGroupBy f g st
    | .havingE h => visitHaving f h st
    | .orderByE o => visitOrderBy f o st

/-- `StatementCompiler.visitCondition` with `visitIn` inlined in the
`In`/`NotIn` branch: no sides writes the operator alone; right-only is
`op(right)`; left-only is `left op`; both sides is either the IN form
`left op (right-list)` or the infix `left op right`.  In the IN form a
literal `Value` right side with non-nil payload goes through `visitSlice`,
anything else is visited normally. -/
def visitCondition : Nat → Option Exp → String → Option Exp → St → St
  | 0, _, _, _, st => st.goPanic fuelMsg
  | f + 1, l, op, r, st =>
    match l, r with
    | none, none => st.wr op
    | none, some r1 => (visitExp f (some r1) (st.wr (op ++ "("))).wr ")"
    | some l1, none => (visitExp f (some l1) st).wr (" " ++ op)
    | some l1, some r1 =>
      if op = ansi.In ∨ op = ansi.NotIn then
        let st1 := (visitExp f (some l1) st).wr (" " ++ op ++ " " ++ "(")
        let st2 : St :=
          match r1 with
          | .value v => if v = .vNil then st1 else visitSlice v st1
          | r1 => visitExp f (some r1) st1
        st2.wr ")"
      else
        visitExp f (some r1) ((visitExp f (some l1) st).wr (" " ++ op ++ " "))

/-- `StatementCompiler.visitAggregate`: nil expression or empty name writes
nothing, else `name(exp)`. -/
def visitAggregate : Nat → String → Option Exp → St → St
  | 0, _, _, st => st.goPanic fuelMsg
  | f + 1, name, e, st =>
    match e with
    | none => st
    | some e1 =>
      if name = "" then st
      else (visitExp f (some e1) (st.wr (name ++ "("))).wr ")"

/-- Comma-joined field list of `visitSelect`. -/
def fieldLoop : Nat → List FieldE → Bool → St → St
  | 0, _, _, st => st.goPanic fuelMsg
  | _ + 1, [], _, st => st
  | f + 1, fd :: rest, isFirst, st =>
    fieldLoop f rest false (visitField f fd (if isFirst then st else st.wr ","))

/-- `StatementCompiler.visitField`: the expression, then optionally
`AS` plus the quoted alias (`writeQuote`). -/
def visitField : Nat → FieldE → St → St
  | 0, _, st => st.goPanic fuelMsg
  | f + 1, .mk e als, st =>
    let st1 := visitExp f e st
    if als = "" then st1
    else st1.wr (" " ++ ansi.As ++ " " ++ st1.d.quote als)

/-- `StatementCompiler.visitSelect`: an empty field list emits `*`; else
the comma-joined fields followed by a blank.  (The Go nil-pointer case is
matched at the call sites.) -/
def visitSelect : Nat → SelectE → St → St
  | 0, _, st => st.goPanic fuelMsg
  | f + 1, .mk fields, st =>
    match fields with
    | [] => st.wr ansi.WildcardAll
    | fs => (fieldLoop f fs true st).wr ansi.Blank

/-- The join list of `visitFrom`: each join on its own line. -/
def joinLoop : Nat → List JoinE → St → St
  | 0, _, st => st.goPanic fuelMsg
  | _ + 1, [], st => st
  | f + 1, j :: rest, st => joinLoop f rest (visitJoin f j (st.wr ansi.LineBreak))

/-- The ON-condition list of `visitJoin`: blank, expression, blank. -/
def joinCondLoop : Nat → List (Option Exp) → St → St
  | 0, _, st => st.goPanic fuelMsg
  | _ + 1, [], st => st
  | f + 1, x :: rest, st =>
    joinCondLoop f rest ((visitExp f x (st.wr ansi.Blank)).wr ansi.Blank)

/-- `StatementCompiler.visitJoin`: join-type keyword, blank, right table,
blank, then `ON` and the condition sequence when it is non-empty. -/
def visitJoin : Nat → JoinE → St → St
  | 0, _, st => st.goPanic fuelMsg
  | f + 1, .mk jt right conds, st =>
    let st1 := (visitTable right ((st.wr jt).wr ansi.Blank)).wr ansi.Blank
    match conds with
    | [] => st1
    | cs => joinCondLoop f cs (st1.wr ansi.On)

/-- `StatementCompiler.visitFrom`: `FROM`, the single table, the
comma-joined table list and the joins, each join on its own line. -/
def visitFrom : Nat → FromE → St → St
  | 0, _, st => st.goPanic fuelMsg
  | f + 1, .mk tbl tbls joins, st =>
    let st1 := st.wr (ansi.LineBreak ++ ansi.From ++ " ")
    let stSplit : St × Bool :=
      match tbl with
      | none => (st1, false)
      | some t => (visitTable (some t) st1, true)
    let st2 := fromTables tbls stSplit.2 stSplit.1
    (joinLoop f joins st2).wr ansi.Blank

/-- The additional-table list of `visitFrom` (comma-joined, the
separator also separating from the single table when present). -/
def fromTables : List (Option TableE) → Bool → St → St
  | [], _, st => st
  | t :: rest, split, st =>
    fromTables rest true (visitTable t (if split then st.wr "," else st))

/-- The condition sequence of `visitConditions`: items in order separated by
line breaks, nil items skipped (but still counted by the index), a running
parenthesis depth driving indentation only. -/
def condLoop : Nat → List (Option Exp) → Nat → Int → St → St
  | 0, _, _, _, st => st.goPanic fuelMsg
  | _ + 1, [], _, _, st => st
  | f + 1, item :: rest, i, deep, st =>
    match item with
    | none => condLoop f rest (i + 1) deep st
    | some e =>
      let deep1 := if isCloseParen e then deep - 1 else deep
      let st3 := visitExp f (some e) (condItemPre i deep1 st)
      let deep2 := if isOpenParen e then deep1 + 1 else deep1
      condLoop f rest (i + 1) deep2 st3

/-- `StatementCompiler.visitWhere` (with the trailing blank of
`visitConditions` inlined): an absent or empty condition sequence emits
nothing, else `WHERE` and the sequence. -/
def visitWhere : Nat → WhereE → St → St
  | 0, _, st => st.goPanic fuelMsg
  | f + 1, .mk conds, st =>
    match conds with
    | [] => st
    | cs =>
      (condLoop f cs 0 0
        (st.wr (ansi.LineBreak ++ ansi.Where ++ ansi.LineBreak))).wr ansi.Blank

/-- The comma-joined field list of `visitGroupBy`. -/
def gbLoop : Nat → List (Option Exp) → Bool → St → St
  | 0, _, _, st => st.goPanic fuelMsg
  | _ + 1, [], _, st => st
  | f + 1, x :: rest, isFirst, st =>
    gbLoop f rest false (visitExp f x (if isFirst then st else st.wr ","))

/-- `StatementCompiler.visitGroupBy`: empty field list emits nothing, else
`GROUP BY` and the comma-joined fields. -/
def visitGroupBy : Nat → GroupByE → St → St
  | 0, _, st => st.goPanic fuelMsg
  | f + 1, .mk fields, st =>
    match fields with
    | [] => st
    | fs =>
      (gbLoop f fs true
        ((st.wr (ansi.LineBreak ++ ansi.GroupBy)).wr ansi.Blank)).wr ansi.Blank

/-- `StatementCompiler.visitHaving` (trailing blank of `visitConditions`
inlined): empty condition sequence emits nothing, else `HAVING` and the
sequence. -/
def visitHaving : Nat → HavingE → St → St
  | 0, _, st => st.goPanic fuelMsg
  | f + 1, .mk conds, st =>
    match conds with
    | [] => st
    | cs =>
      (condLoop f cs 0 0
        (st.wr (ansi.LineBreak ++ ansi.Having ++ ansi.LineBreak))).wr ansi.Blank

/-- The item list of `visitOrderBy`: comma-joined expression, blank,
direction keyword. -/
def obLoop : Nat → List OrderItem → Bool → St → St
  | 0, _, _, st => st.goPanic fuelMsg
  | _ + 1, [], _, st => st
  | f + 1, .mk e dir :: rest, isFirst, st =>
    obLoop f rest false
      ((visitExp f e (if isFirst then st else st.wr ",")).wr (ansi.Blank ++ dir))

/-- `StatementCompiler.visitOrderBy`: empty item list emits nothing, else
`ORDER BY` and the items. -/
def visitOrderBy : Nat → OrderByE → St → St
  | 0, _, st => st.goPanic fuelMsg
  | f + 1, .mk items, st =>
    match items with
    | [] => st
    | its =>
      (obLoop f its true
        ((st.wr (ansi.LineBreak ++ ansi.OrderBy)).wr ansi.Blank)).wr ansi.Blank

/-- The nil-pointer dispatch of `visitSelect` (Go checks `slt == nil`
inside the method; here the nil case is matched in this wrapper). -/
def visitSelectO : Nat → Option SelectE → St → St
  | 0, _, st => st.goPanic fuelMsg
  | _ + 1, none, st => st.wr ansi.WildcardAll
  | f + 1, some s, st => visitSelect f s st

/-- The nil-pointer dispatch of `visitFrom`. -/
def visitFromO : Nat → Option FromE → St → St
  | 0, _, st => st.goPanic fuelMsg
  | _ + 1, none, st => st
  | f + 1, some fr, st => visitFrom f fr st

/-- The nil-pointer dispatch of `visitWhere`. -/
def visitWhereO : Nat → Option WhereE → St → St
  | 0, _, st => st.goPanic fuelMsg
  | _ + 1, none, st => st
  | f + 1, some w, st => visitWhere f w st

/-- The nil-pointer dispatch of `visitGroupBy`. -/
def visitGroupByO : Nat → Option GroupByE → St → St
  | 0, _, st => st.goPanic fuelMsg
  | _ + 1, none, st => st
  | f + 1, some g, st => visitGroupBy f g st

/-- The nil-pointer dispatch of `visitHaving`. -/
def visitHavingO : Nat → Option HavingE → St → St
  | 0, _, st => st.goPanic fuelMsg
  | _ + 1, none, st => st
  | f + 1, some h, st => visitHaving f h st

/-- The nil-pointer dispatch of `visitOrderBy`. -/
def visitOrderByO : Nat → Option OrderByE → St → St
  | 0, _, st => st.goPanic fuelMsg
  | _ + 1, none, st => st
  | f + 1, some o, st => visitOrderBy f o st

/-- `StatementCompiler.visitQuery`: `SELECT [DISTINCT]`, the select list,
from, where, group-by, having (visited only when the group-by clause is
present with a non-empty field list), order-by, then the `LIMIT offset,count`
clause when `Offset > 0 or Count > 0`, and the statement terminator.
Nil clause pointers are matched here (the Go nil checks live inside the
respective visit methods). -/
def visitQuery : Nat → QueryE → St → St
  | 0, _, st => st.goPanic fuelMsg
  | f + 1, .mk dist sel frm whr grp hav ord off cnt, st =>
    let st1 := (st.wr ansi.Select).wr ansi.Blank
    let st2 := if dist then (st1.wr ansi.Distinct).wr ansi.Blank else st1
    let st3 := visitSelectO f sel st2
    let st4 := visitFromO f frm st3
    let st5 := visitWhereO f whr st4
    let st6 := visitGroupByO f grp st5
    let st7 := if grpActive grp then visitHavingO f hav st6 else st6
    let st8 := visitOrderByO f ord st7
    let st9 :=
      if off > 0 ∨ cnt > 0 then
        (st8.wr ansi.LineBreak).wr
          (ansi.Limit ++ " " ++ toString off ++ "," ++ toString cnt)
      else st8
    st9.wr ansi.StatementSplit

/-- The VALUES list of `visitInsert`. -/
def setValsLoop : Nat → List SetE → Bool → St → St
  | 0, _, _, st => st.goPanic fuelMsg
  | _ + 1, [], _, st => st
  | f + 1, .mk _ v :: rest, isFirst, st =>
    setValsLoop f rest false (visitExp f v (if isFirst then st else st.wr ","))

/-- `StatementCompiler.visitInsert`:
`INSERT INTO table(cols)\nVALUES(vals);` with columns and values drawn in
the same order from the set list. -/
def visitInsert : Nat → InsertE → St → St
  | 0, _, st => st.goPanic fuelMsg
  | f + 1, .mk tbl sets, st =>
    let st1 := ((st.wr (ansi.InsertInto ++ ansi.Blank ++ tbl)).wr "(")
    let st2 := (setColsLoop sets true st1).wr ")"
    let st3 := ((st2.wr ansi.LineBreak).wr ansi.Values).wr "("
    ((setValsLoop f sets true st3).wr ")").wr ansi.StatementSplit

/-- The SET pairs of `visitUpdate`: `col=value` comma-joined. -/
def updSetLoop : Nat → List SetE → Bool → St → St
  | 0, _, _, st => st.goPanic fuelMsg
  | _ + 1, [], _, st => st
  | f + 1, .mk col v :: rest, isFirst, st =>
    updSetLoop f rest false
      (visitExp f v
        ((visitColumn col (if isFirst then st else st.wr ",")).wr ansi.Equals))

/-- `StatementCompiler.visitUpdate`: `UPDATE table SET` on its own line,
the set pairs, where, order-by, `LIMIT count` when `Count > 0`, and the
terminator. -/
def visitUpdate : Nat → UpdateE → St → St
  | 0, _, st => st.goPanic fuelMsg
  | f + 1, .mk tbl sets whr ord cnt, st =>
    let st1 := st.wr (ansi.Update ++ ansi.Blank ++ tbl ++ ansi.Blank ++
      ansi.Set ++ ansi.Blank ++ ansi.LineBreak)
    let st2 := updSetLoop f sets true st1
    let st3 := visitWhereO f whr st2
    let st4 := visitOrderByO f ord st3
    let st5 :=
      if cnt > 0 then
        (st4.wr ansi.LineBreak).wr (ansi.Limit ++ " " ++ toString cnt)
      else st4
    st5.wr ansi.StatementSplit

/-- `StatementCompiler.visitDelete`: `DELETE FROM table`, where, order-by,
`LIMIT count` when `Count > 0`, and the terminator. -/
def visitDelete : Nat → DeleteE → St → St
  | 0, _, st => st.goPanic fuelMsg
  | f + 1, .mk tbl whr ord cnt, st =>
    let st1 := st.wr (ansi.Delete ++ ansi.Blank ++ ansi.From ++ ansi.Blank ++ tbl)
    let st2 := visitWhereO f whr st1
    let st3 := visitOrderByO f ord st2
    let st4 :=
      if cnt > 0 then
        (st3.wr ansi.LineBreak).wr (ansi.Limit ++ " " ++ toString cnt)
      else st3
    st4.wr ansi.StatementSplit

end



/-- Outcome of a compile entry point: success with query text, argument
list and the ghost placeholder trace; a structured error; or a Go panic. -/
inductive CompRes where
  | ok (query : String) (args : List GoValue) (trace : List String)
  | err (e : CErr)
  | panicked (msg : String)
deriving DecidableEq, Repr

/-- The query of a successful compile, `""` otherwise. -/
def CompRes.queryOf : CompRes → String
  | .ok q _ _ => q
  | _ => ""

/-- The argument list of a successful compile, `[]` otherwise. -/
def CompRes.argsOf : CompRes → List GoValue
  | .ok _ a _ => a
  | _ => []

/-- The placeholder trace of a successful compile, `[]` otherwise. -/
def CompRes.traceOf : CompRes → List String
  | .ok _ _ t => t
  | _ => []

/-- The fresh state of `NewStatementCompiler` plus `Compile`: empty writer,
empty argument list, zero placeholder counter. -/
def stInit (d : Dialecter) : St :=
  { d := d }

/-- Package the final visitor state: a recorded panic wins, otherwise the
accumulated query and arguments. -/
def finish (st : St) : CompRes :=
  match st.panicked with
  | some m => .panicked m
  | none => .ok st.w st.args st.trace

/-- `StatementCompiler.Compile`: for a nil expression the Go code assigns
the error but does NOT return, and the following `exp.Node()` dereferences
the nil interface -- a runtime panic (modelled by `panicked`).  Otherwise
dispatch on the top node kind: `Query/Update/Insert/Delete` are visited
(with fuel `szE e`, which each strictly-descending recursive call keeps
sufficient), anything else is the structured
"doesn not support expression type" error. -/
def StatementCompiler.Compile (d : Dialecter) (oe : Option Exp) : CompRes :=
  match oe with
  | none => .panicked "runtime error: invalid memory address or nil pointer dereference"
  | some e =>
    match e with
    | .query q => finish (visitQuery (szE e) q (stInit d))
    | .update u => finish (visitUpdate (szE e) u (stInit d))
    | .insert i => finish (visitInsert (szE e) i (stInit d))
    | .delete dl => finish (visitDelete (szE e) dl (stInit d))
    | e => .err (.unsupportedNode (nodeName e))

/-- `Text.FindParameter`: Modelled from the spec; name lookup in the
parameter map. -/
def findParameter (ps : List (String × GoValue)) (name : String) : Option GoValue :=
  (ps.find? (fun p => p.1 = name)).map (fun p => p.2)

/-- Opening brace character. -/
def braceOpen : Char := Char.ofNat 123

/-- Closing brace character. -/
def braceClose : Char := Char.ofNat 125

/-- The whitespace set of `strings.TrimSpace` (the ASCII cases of Go
`unicode.IsSpace`: space, tab, newline, vertical tab, form feed, carriage
return). -/
def isSpaceCh (c : Char) : Bool :=
  c = ' ' || c = Char.ofNat 9 || c = Char.ofNat 10 || c = Char.ofNat 11 ||
  c = Char.ofNat 12 || c = Char.ofNat 13

/-- `strings.TrimSpace` on the character list: drop leading and trailing
whitespace (structural recursion, so concrete templates evaluate). -/
def trimList (l : List Char) : List Char :=
  ((l.dropWhile isSpaceCh).reverse.dropWhile isSpaceCh).reverse

/-- `strings.TrimSpace` of a parameter name accumulated between braces. -/
def strTrim (s : String) : String :=
  String.mk (trimList s.data)

/-- The two-state template scanner of `AnsiDriver.compileText`, one
character at a time (equivalent to the Go `bytes.IndexByte` chunking):
outside a brace (`inBrace = false`) text is copied verbatim and an opening
brace switches state; inside a brace a closing byte strictly after at least
one accumulated byte ends the placeholder (`index > 0`), the accumulated
bytes are trimmed and looked up, and the dialect placeholder is emitted
(mode 0: bare token; mode 1: token + name; mode 2: token + running index
starting at 1); a closing brace immediately after the opening one
(`index == 0`) or end of input inside a brace is the malformed-template
error.  `tr` is the ghost placeholder trace. -/
def textScan (d : Dialecter) (ps : List (String × GoValue)) :
    List Char → Bool → List Char → String → Nat → List GoValue → List String → CompRes
  | [], false, _, buf, _, as, tr => .ok buf as tr
  | [], true, _, _, _, _, _ => .err .malformedTemplate
  | c :: rest, false, acc, buf, pi, as, tr =>
    if c = braceOpen then textScan d ps rest true [] buf pi as tr
    else textScan d ps rest false acc (buf.push c) pi as tr
  | c :: rest, true, acc, buf, pi, as, tr =>
    if c = braceClose then
      match acc with
      | [] => .err .malformedTemplate
      | acc =>
        let name := strTrim (String.mk acc)
        match findParameter ps name with
        | none => .err (.unknownParameter name)
        | some v =>
          match modeOf d with
          | 0 => textScan d ps rest false [] (buf ++ d.placeHolder) pi
                   (as ++ [v]) (tr ++ [d.placeHolder])
          | 1 => textScan d ps rest false [] (buf ++ d.placeHolder ++ name) pi
                   (as ++ [v]) (tr ++ [d.placeHolder ++ name])
          | _ + 2 => textScan d ps rest false []
                   (buf ++ d.placeHolder ++ toString pi) (pi + 1)
                   (as ++ [v]) (tr ++ [d.placeHolder ++ toString pi])
    else textScan d ps rest true (acc ++ [c]) buf pi as tr

/-- `AnsiDriver.compileText`: nil text or empty source is the nil-text
error; an empty parameter map passes the source through unchanged with an
empty argument list; otherwise the scanner runs with the dialect
placeholder and an index counter starting at 1. -/
def compileText (d : Dialecter) (ot : Option TextE) : CompRes :=
  match ot with
  | none => .err .nilText
  | some t =>
    if t.sql = "" then .err .nilText
    else if t.parameters.isEmpty then .ok t.sql [] []
    else textScan d t.parameters t.sql.data false [] "" 1 [] []

/-- The `SET @name = ?;` prelude of `compileProcedure`: one assignment per
`InOut` parameter, its value argument-bound. -/
def procPrelude : List ParamE → String × List GoValue
  | [] => ("", [])
  | p :: rest =>
    let r := procPrelude rest
    if p.dir = Dir.dinout then
      ("SET @" ++ p.name ++ " = ?; \n" ++ r.1, [p.value] ++ r.2)
    else r

/-- The positional argument list of the procedure call: `In` parameters
emit `?` (value bound), `Out`/`InOut` emit `@name` (no bound value,
`hasOut` set), `Return` parameters emit nothing (the index-based comma is
still written). -/
def procArgLoop : List ParamE → Nat → String → List GoValue → Bool →
    String × List GoValue × Bool
  | [], _, buf, as, ho => (buf, as, ho)
  | p :: rest, i, buf, as, ho =>
    let buf1 := if i > 0 then buf ++ ", " else buf
    match p.dir with
    | .din => procArgLoop rest (i + 1) (buf1 ++ "?") (as ++ [p.value]) ho
    | .dinout => procArgLoop rest (i + 1) (buf1 ++ "@" ++ p.name) as true
    | .dout => procArgLoop rest (i + 1) (buf1 ++ "@" ++ p.name) as true
    | .dret => procArgLoop rest (i + 1) buf1 as ho

/-- The trailing `SELECT @p1, @p2, ...` variable list: every parameter that
`IsOut` or has direction `Return`, comma-delimited. -/
def procOutVars : List ParamE → Bool → String
  | [], _ => ""
  | p :: rest, delimit =>
    if p.IsOut || p.dir = Dir.dret then
      (if delimit then ", " else "") ++ "@" ++ p.name ++ procOutVars rest true
    else procOutVars rest delimit

/-- `AnsiDriver.compileProcedure`: nil procedure or empty name errors;
otherwise the `InOut` prelude, then the call line -- headed `CALL ` when no
return parameter is designated and `SET @returnName` otherwise (the source
appends the procedure name directly after the return name, with no ` = `) --
with the positional arguments between ` ( ` and ` );`, then, when some
output direction or a return name exists, a trailing
`SELECT @v1, @v2, ...; ` line. -/
def compileProcedure (osp : Option ProcE) : CompRes :=
  match osp with
  | none => .err .nilProcedure
  | some sp =>
    if sp.name = "" then .err .nilProcedure
    else
      let pre := procPrelude sp.params
      let head := if sp.ReturnParameterName = "" then "CALL "
                  else "SET @" ++ sp.ReturnParameterName
      let call := procArgLoop sp.params 0 "" [] false
      let q1 := pre.1 ++ head ++ sp.name ++ " ( " ++ call.1 ++ " );"
      let q2 :=
        if call.2.2 || sp.ReturnParameterName ≠ "" then
          q1 ++ "\nSELECT " ++ procOutVars sp.params false ++ "; "
        else q1
      .ok q2 (pre.2 ++ call.2.1) []

/-- `AnsiDriver.Compile`: nil expression is the structured nil error (this
entry point returns properly); `Text` and `Procedure` go to their
compilers; `Query/Update/Insert/Delete` go to a fresh statement compiler;
any other top-level kind is the unsupported-type error. -/
def AnsiDriver.Compile (d : Dialecter) (oe : Option Exp) : CompRes :=
  match oe with
  | none => .err .nilExpression
  | some (.textE t) => compileText d (some t)
  | some (.procedureE p) => compileProcedure (some p)
  | some e =>
    match e with
    | .query _ => StatementCompiler.Compile d (some e)
    | .update _ => StatementCompiler.Compile d (some e)
    | .insert _ => StatementCompiler.Compile d (some e)
    | .delete _ => StatementCompiler.Compile d (some e)
    | e => .err (.unsupportedNodeTop (nodeName e))

mutual

/-- Specification side: the payloads of the non-nil literal `Value` leaves
of a tree, in pre-order (left-to-right, children in field order).  Defined
independently of the compiler, with the same fuel discipline. -/
def preVExp : Nat → Option Exp → List GoValue
  | 0, _ => []
  | _ + 1, none => []
  | f + 1, some e =>
    match e with
    | .value v => if v = .vNil then [] else [v]
    | .cond l op r => preVCond f l op r
    | .aggregate n e1 => preVAgg f n e1
    | .sel s => preVSel f s
    | .fromE fr => preVFrom f fr
    | .joinE j => preVJoin f j
    | .whereE w => preVWhere f w
    | .groupByE g => preVGb f g
    | .havingE h => preVHav f h
    | .orderByE o => preVOb f o
    | .query q => preVQuery f q
    | .insert i => preVIns f i
    | .update u => preVUpd f u
    | .delete dl => preVDel f dl
    | _ => []

/-- Mirror layer of `visitCondition`: left values then right values. -/
def preVCond : Nat → Option Exp → String → Option Exp → List GoValue
  | 0, _, _, _ => []
  | f + 1, l, _, r => preVExp f l ++ preVExp f r

/-- Mirror layer of `visitAggregate`. -/
def preVAgg : Nat → String → Option Exp → List GoValue
  | 0, _, _ => []
  | f + 1, _, e => match e with | none => [] | some e1 => preVExp f (some e1)

/-- Pre-order values of a sequence of optional expressions. -/
def preVCondLoop : Nat → List (Option Exp) → List GoValue
  | 0, _ => []
  | _ + 1, [] => []
  | f + 1, x :: rest => preVExp f x ++ preVCondLoop f rest

def preVField : Nat → FieldE → List GoValue
  | 0, _ => []
  | f + 1, .mk e _ => preVExp f e

def preVFieldLoop : Nat → List FieldE → List GoValue
  | 0, _ => []
  | _ + 1, [] => []
  | f + 1, fd :: rest => preVField f fd ++ preVFieldLoop f rest

def preVSel : Nat → SelectE → List GoValue
  | 0, _ => []
  | f + 1, .mk fields => preVFieldLoop f fields

def preVJoin : Nat → JoinE → List GoValue
  | 0, _ => []
  | f + 1, .mk _ _ conds => preVCondLoop f conds

def preVJoinLoop : Nat → List JoinE → List GoValue
  | 0, _ => []
  | _ + 1, [] => []
  | f + 1, j :: rest => preVJoin f j ++ preVJoinLoop f rest

def preVFrom : Nat → FromE → List GoValue
  | 0, _ => []
  | f + 1, .mk _ _ joins => preVJoinLoop f joins

def preVWhere : Nat → WhereE → List GoValue
  | 0, _ => []
  | f + 1, .mk conds => preVCondLoop f conds

def preVGb : Nat → GroupByE → List GoValue
  | 0, _ => []
  | f + 1, .mk fields => preVCondLoop f fields

def preVHav : Nat → HavingE → List GoValue
  | 0, _ => []
  | f + 1, .mk conds => preVCondLoop f conds

def preVObLoop : Nat → List OrderItem → List GoValue
  | 0, _ => []
  | _ + 1, [] => []
  | f + 1, .mk e _ :: rest => preVExp f e ++ preVObLoop f rest

def preVOb : Nat → OrderByE → List GoValue
  | 0, _ => []
  | f + 1, .mk items => preVObLoop f items

def preVSelO : Nat → Option SelectE → List GoValue
  | 0, _ => []
  | _ + 1, none => []
  | f + 1, some x => preVSel f x

def preVFromO : Nat → Option FromE → List GoValue
  | 0, _ => []
  | _ + 1, none => []
  | f + 1, some x => preVFrom f x

def preVWhereO : Nat → Option WhereE → List GoValue
  | 0, _ => []
  | _ + 1, none => []
  | f + 1, some x => preVWhere f x

def preVGbO : Nat → Option GroupByE → List GoValue
  | 0, _ => []
  | _ + 1, none => []
  | f + 1, some x => preVGb f x

def preVHavO : Nat → Option HavingE → List GoValue
  | 0, _ => []
  | _ + 1, none => []
  | f + 1, some x => preVHav f x

def preVObO : Nat → Option OrderByE → List GoValue
  | 0, _ => []
  | _ + 1, none => []
  | f + 1, some x => preVOb f x

/-- Pre-order values of a `Query`: select, from, where, group-by, having
(unconditionally -- this is the tree traversal, not the compiler), order-by. -/
def preVQuery : Nat → QueryE → List GoValue
  | 0, _ => []
  | f + 1, .mk _ sel frm whr grp hav ord _ _ =>
    preVSelO f sel ++ preVFromO f frm ++ preVWhereO f whr ++
    preVGbO f grp ++ preVHavO f hav ++ preVObO f ord

def preVSetLoop : Nat → List SetE → List GoValue
  | 0, _ => []
  | _ + 1, [] => []
  | f + 1, .mk _ v :: rest => preVExp f v ++ preVSetLoop f rest

def preVIns : Nat → InsertE → List GoValue
  | 0, _ => []
  | f + 1, .mk _ sets => preVSetLoop f sets

def preVUpd : Nat → UpdateE → List GoValue
  | 0, _ => []
  | f + 1, .mk _ sets whr ord _ =>
    preVSetLoop f sets ++ preVWhereO f whr ++ preVObO f ord

def preVDel : Nat → DeleteE → List GoValue
  | 0, _ => []
  | f + 1, .mk _ whr ord _ => preVWhereO f whr ++ preVObO f ord

end

/-- The pre-order non-nil `Value` payload list of a statement tree, with the
same fuel the compiler entry point uses. -/
def preVals (e : Exp) : List GoValue :=
  match e with
  | .query q => preVQuery (szE e) q
  | .update u => preVUpd (szE e) u
  | .insert i => preVIns (szE e) i
  | .delete dl => preVDel (szE e) dl
  | _ => []

/-- True when a having clause is absent or has no conditions (used by the
argument-safety predicate: such a clause is harmlessly skippable). -/
def havEmptyGuard : Option HavingE → Bool
  | none => true
  | some (.mk conds) => conds.isEmpty

mutual

/-- Argument-safety of a tree: no node kind the visitor panics on; the
right side of an `IN`/`NOT IN` condition with both sides present is not a
literal slice `Value` (the compiler inlines or explodes those instead of
binding one argument per leaf); aggregates with a present expression carry
a non-empty name (the compiler skips unnamed aggregates); a `Query`
carries a having clause with conditions only when its group-by clause is
active (the compiler skips having otherwise). -/
def asExp : Nat → Option Exp → Bool
  | 0, _ => false
  | _ + 1, none => true
  | f + 1, some e =>
    match e with
    | .textE _ => false
    | .procedureE _ => false
    | .parameterE => false
    | .outputE => false
    | .value _ => true
    | .cond l op r => asCond f l op r
    | .aggregate n e1 => asAgg f n e1
    | .sel s => asSel f s
    | .fromE fr => asFrom f fr
    | .joinE j => asJoin f j
    | .whereE w => asWhere f w
    | .groupByE g => asGb f g
    | .havingE h => asHav f h
    | .orderByE o => asOb f o
    | .query q => asQuery f q
    | .insert i => asIns f i
    | .update u => asUpd f u
    | .delete dl => asDel f dl
    | _ => true

/-- Mirror layer of `visitCondition`: the IN right side must not be a
literal slice `Value`, and both children must be safe. -/
def asCond : Nat → Option Exp → String → Option Exp → Bool
  | 0, _, _, _ => false
  | f + 1, l, op, r =>
    (if op = ansi.In ∨ op = ansi.NotIn then
      (match l, r with
       | some _, some (.value v) => v.isScalar
       | _, _ => true)
     else true) && asExp f l && asExp f r

/-- Mirror layer of `visitAggregate`: a present expression needs a
non-empty aggregate name. -/
def asAgg : Nat → String → Option Exp → Bool
  | 0, _, _ => false
  | f + 1, n, e =>
    (match e with | none => true | some _ => n != "") && asExp f e

def asCondLoop : Nat → List (Option Exp) → Bool
  | 0, _ => false
  | _ + 1, [] => true
  | f + 1, x :: rest => asExp f x && asCondLoop f rest

def asField : Nat → FieldE → Bool
  | 0, _ => false
  | f + 1, .mk e _ => asExp f e

def asFieldLoop : Nat → List FieldE → Bool
  | 0, _ => false
  | _ + 1, [] => true
  | f + 1, fd :: rest => asField f fd && asFieldLoop f rest

def asSel : Nat → SelectE → Bool
  | 0, _ => false
  | f + 1, .mk fields => asFieldLoop f fields

def asJoin : Nat → JoinE → Bool
  | 0, _ => false
  | f + 1, .mk _ _ conds => asCondLoop f conds

def asJoinLoop : Nat → List JoinE → Bool
  | 0, _ => false
  | _ + 1, [] => true
  | f + 1, j :: rest => asJoin f j && asJoinLoop f rest

def asFrom : Nat → FromE → Bool
  | 0, _ => false
  | f + 1, .mk _ _ joins => asJoinLoop f joins

def asWhere : Nat → WhereE → Bool
  | 0, _ => false
  | f + 1, .mk conds => asCondLoop f conds

def asGb : Nat → GroupByE → Bool
  | 0, _ => false
  | f + 1, .mk fields => asCondLoop f fields

def asHav : Nat → HavingE → Bool
  | 0, _ => false
  | f + 1, .mk conds => asCondLoop f conds

def asObLoop : Nat → List OrderItem → Bool
  | 0, _ => false
  | _ + 1, [] => true
  | f + 1, .mk e _ :: rest => asExp f e && asObLoop f rest

def asOb : Nat → OrderByE → Bool
  | 0, _ => false
  | f + 1, .mk items => asObLoop f items

def asSelO : Nat → Option SelectE → Bool
  | 0, _ => false
  | _ + 1, none => true
  | f + 1, some x => asSel f x

def asFromO : Nat → Option FromE → Bool
  | 0, _ => false
  | _ + 1, none => true
  | f + 1, some x => asFrom f x

def asWhereO : Nat → Option WhereE → Bool
  | 0, _ => false
  | _ + 1, none => true
  | f + 1, some x => asWhere f x

def asGbO : Nat → Option GroupByE → Bool
  | 0, _ => false
  | _ + 1, none => true
  | f + 1, some x => asGb f x

def asHavO : Nat → Option HavingE → Bool
  | 0, _ => false
  | _ + 1, none => true
  | f + 1, some x => asHav f x

def asObO : Nat → Option OrderByE → Bool
  | 0, _ => false
  | _ + 1, none => true
  | f + 1, some x => asOb f x

def asQuery : Nat → QueryE → Bool
  | 0, _ => false
  | f + 1, .mk _ sel frm whr grp hav ord _ _ =>
    (grpActive grp || havEmptyGuard hav) &&
    asSelO f sel && asFromO f frm && asWhereO f whr &&
    asGbO f grp && asHavO f hav && asObO f ord

def asSetLoop : Nat → List SetE → Bool
  | 0, _ => false
  | _ + 1, [] => true
  | f + 1, .mk _ v :: rest => asExp f v && asSetLoop f rest

def asIns : Nat → InsertE → Bool
  | 0, _ => false
  | f + 1, .mk _ sets => asSetLoop f sets

def asUpd : Nat → UpdateE → Bool
  | 0, _ => false
  | f + 1, .mk _ sets whr ord _ =>
    asSetLoop f sets && asWhereO f whr && asObO f ord

def asDel : Nat → DeleteE → Bool
  | 0, _ => false
  | f + 1, .mk _ whr ord _ => asWhereO f whr && asObO f ord

end

/-- Argument-safety at the compile entry point (see `asExp`). -/
def argSafeTop (e : Exp) : Bool :=
  match e with
  | .query q => asQuery (szE e) q
  | .update u => asUpd (szE e) u
  | .insert i => asIns (szE e) i
  | .delete dl => asDel (szE e) dl
  | _ => false

/-- The placeholder a `writeValue`/`compileText` substitution emits when the
running counter is `i`: the bare token in positional mode, token plus
`i + 1` in named or indexed mode. -/
def phAt (d : Dialecter) (i : Nat) : String :=
  if modeOf d = 0 then d.placeHolder else d.placeHolder ++ toString (i + 1)

/-- The `k` placeholders emitted consecutively starting at counter `i`. -/
def phL (d : Dialecter) (i k : Nat) : List String :=
  (List.range k).map (fun j => phAt d (i + j))

/-- Counter value after `k` placeholder emissions starting at `i`. -/
def bump (d : Dialecter) (i k : Nat) : Nat :=
  if modeOf d = 0 then i else i + k

theorem phL_zero (d : Dialecter) (i : Nat) : phL d i 0 = [] := by
  simp [phL]

theorem bump_zero (d : Dialecter) (i : Nat) : bump d i 0 = i := by
  simp [bump]

theorem phAt_shift (d : Dialecter) (i k1 j : Nat) :
    phAt d (bump d i k1 + j) = phAt d (i + (k1 + j)) := by
  unfold phAt bump
  by_cases h : modeOf d = 0
  · simp [h]
  · simp only [if_neg h]
    have h3 : i + k1 + j + 1 = i + (k1 + j) + 1 := by omega
    rw [h3]

theorem phL_comp (d : Dialecter) (i k1 k2 : Nat) :
    phL d i k1 ++ phL d (bump d i k1) k2 = phL d i (k1 + k2) := by
  unfold phL
  rw [List.range_add, List.map_append, List.map_map]
  congr 1
  apply List.map_congr_left
  intro a _
  exact phAt_shift d i k1 a

theorem bump_comp (d : Dialecter) (i k1 k2 : Nat) :
    bump d (bump d i k1) k2 = bump d i (k1 + k2) := by
  unfold bump
  by_cases h : modeOf d = 0 <;> simp [h] <;> omega

def StExt (a b : St) : Prop :=
  ∃ s l k, b.d = a.d ∧ b.w = a.w ++ s ∧ b.args = a.args ++ l ∧
    b.trace = a.trace ++ phL a.d a.paraIndex k ∧
    b.paraIndex = bump a.d a.paraIndex k

theorem StExt.rfl (a : St) : StExt a a :=
  ⟨"", [], 0, Eq.refl _, by simp, by simp, by simp [phL_zero], by simp [bump_zero]⟩

theorem StExt.trans {a b c : St} (h1 : StExt a b) (h2 : StExt b c) : StExt a c := by
  obtain ⟨s1, l1, k1, hd1, hw1, ha1, ht1, hp1⟩ := h1
  obtain ⟨s2, l2, k2, hd2, hw2, ha2, ht2, hp2⟩ := h2
  refine ⟨s1 ++ s2, l1 ++ l2, k1 + k2, by rw [hd2, hd1], ?_, ?_, ?_, ?_⟩
  · rw [hw2, hw1, String.append_assoc]
  · rw [ha2, ha1, List.append_assoc]
  · rw [ht2, ht1, hd1, hp1, List.append_assoc, phL_comp]
  · rw [hp2, hp1, hd1, bump_comp]

theorem ext_wr (a : St) (s : String) : StExt a (a.wr s) := by
  unfold St.wr
  split
  · exact StExt.rfl a
  · exact ⟨s, [], 0, Eq.refl _, Eq.refl _, by simp, by simp [phL_zero],
      by simp [bump_zero]⟩

theorem ext_goPanic (a : St) (m : String) : StExt a (a.goPanic m) := by
  unfold St.goPanic
  split
  · exact StExt.rfl a
  · exact ⟨"", [], 0, Eq.refl _, by simp, by simp, by simp [phL_zero],
      by simp [bump_zero]⟩

theorem ext_writeValue (a : St) (v : GoValue) : StExt a (writeValue v a) := by
  unfold writeValue
  split
  · exact StExt.rfl a
  · split
    · exact ext_wr a ansi.Null
    · split <;> exact ⟨_, _, 1, Eq.refl _, Eq.refl _, Eq.refl _,
        by simp_all [phL, phAt, List.range_succ], by simp_all [bump]⟩

theorem ext_visitValue (a : St) (v : GoValue) : StExt a (visitValue v a) := by
  unfold visitValue
  cases v with
  | vNil => exact ext_wr a ansi.Null
  | vInt x => exact ext_writeValue a _
  | vStr x => exact ext_writeValue a _
  | sInt x => exact ext_writeValue a _
  | sStr x => exact ext_writeValue a _

theorem ext_visitColumn (a : St) (c : String) : StExt a (visitColumn c a) :=
  ext_wr a c

theorem ext_visitTable (a : St) (t : Option TableE) : StExt a (visitTable t a) := by
  unfold visitTable
  cases t with
  | none => exact StExt.rfl a
  | some t =>
    repeat' split
    all_goals first
      | exact StExt.rfl a
      | exact ext_wr a _

theorem ext_sliceInts (l : List Int) : ∀ b a, StExt a (sliceInts l b a) := by
  induction l with
  | nil => intro b a; exact StExt.rfl a
  | cons x rest ih =>
    intro b a
    refine StExt.trans ?_ (ih false _)
    refine StExt.trans ?_ (ext_wr _ _)
    split
    · exact StExt.rfl a
    · exact ext_wr a _

theorem ext_sliceStrs (l : List String) : ∀ b a, StExt a (sliceStrs l b a) := by
  induction l with
  | nil => intro b a; exact StExt.rfl a
  | cons x rest ih =>
    intro b a
    refine StExt.trans ?_ (ih false _)
    refine StExt.trans ?_ (ext_writeValue _ _)
    split
    · exact StExt.rfl a
    · exact ext_wr a _

theorem ext_visitSlice (a : St) (v : GoValue) : StExt a (visitSlice v a) := by
  unfold visitSlice
  cases v with
  | vNil => exact ext_writeValue a _
  | vInt x => exact ext_writeValue a _
  | vStr x => exact ext_writeValue a _
  | sInt l => exact ext_sliceInts l true a
  | sStr l => exact ext_sliceStrs l true a

theorem ext_fromTables (l : List (Option TableE)) : ∀ b a, StExt a (fromTables l b a) := by
  induction l with
  | nil => intro b a; exact StExt.rfl a
  | cons t rest ih =>
    intro b a
    refine StExt.trans ?_ (ih true _)
    refine StExt.trans ?_ (ext_visitTable _ _)
    split
    · exact ext_wr a _
    · exact StExt.rfl a

theorem ext_setColsLoop (l : List SetE) : ∀ b a, StExt a (setColsLoop l b a) := by
  induction l with
  | nil => intro b a; exact StExt.rfl a
  | cons x rest ih =>
    intro b a
    cases x with
    | mk col v =>
      refine StExt.trans ?_ (ih false _)
      refine StExt.trans ?_ (ext_visitColumn _ _)
      split
      · exact StExt.rfl a
      · exact ext_wr a _

theorem ext_condItemPre (i : Nat) (dp : Int) (a : St) :
    StExt a (condItemPre i dp a) := by
  unfold condItemPre
  repeat' split
  all_goals first
    | exact StExt.rfl a
    | exact ext_wr a _
    | exact StExt.trans (ext_wr a _) (ext_wr _ _)

/-- Fuel exhaustion marker at fuel zero (also forces equation generation). -/
theorem visitExp_fzero (oe : Option Exp) (a : St) : visitExp 0 oe a = a.goPanic fuelMsg := by
  simp only [visitExp]

/-- Fuel exhaustion marker at fuel zero (also forces equation generation). -/
theorem visitCondition_fzero (l : Option Exp) (op : String) (r : Option Exp) (a : St) : visitCondition 0 l op r a = a.goPanic fuelMsg := by
  simp only [visitCondition]

/-- Fuel exhaustion marker at fuel zero (also forces equation generation). -/
theorem visitAggregate_fzero (n : String) (e : Option Exp) (a : St) : visitAggregate 0 n e a = a.goPanic fuelMsg := by
  simp only [visitAggregate]

/-- Fuel exhaustion marker at fuel zero (also forces equation generation). -/
theorem fieldLoop_fzero (fds : List FieldE) (b : Bool) (a : St) : fieldLoop 0 fds b a = a.goPanic fuelMsg := by
  simp only [fieldLoop]

/-- Fuel exhaustion marker at fuel zero (also forces equation generation). -/
theorem visitField_fzero (fd : FieldE) (a : St) : visitField 0 fd a = a.goPanic fuelMsg := by
  simp only [visitField]

/-- Fuel exhaustion marker at fuel zero (also forces equation generation). -/
theorem visitSelect_fzero (s : SelectE) (a : St) : visitSelect 0 s a = a.goPanic fuelMsg := by
  simp only [visitSelect]

/-- Fuel exhaustion marker at fuel zero (also forces equation generation). -/
theorem joinLoop_fzero (js : List JoinE) (a : St) : joinLoop 0 js a = a.goPanic fuelMsg := by
  simp only [joinLoop]

/-- Fuel exhaustion marker at fuel zero (also forces equation generation). -/
theorem joinCondLoop_fzero (cs : List (Option Exp)) (a : St) : joinCondLoop 0 cs a = a.goPanic fuelMsg := by
  simp only [joinCondLoop]

/-- Fuel exhaustion marker at fuel zero (also forces equation generation). -/
theorem visitJoin_fzero (j : JoinE) (a : St) : visitJoin 0 j a = a.goPanic fuelMsg := by
  simp only [visitJoin]

/-- Fuel exhaustion marker at fuel zero (also forces equation generation). -/
theorem visitFrom_fzero (fr : FromE) (a : St) : visitFrom 0 fr a = a.goPanic fuelMsg := by
  simp only [visitFrom]

/-- Fuel exhaustion marker at fuel zero (also forces equation generation). -/
theorem condLoop_fzero (cs : List (Option Exp)) (i : Nat) (dp : Int) (a : St) : condLoop 0 cs i dp a = a.goPanic fuelMsg := by
  simp only [condLoop]

/-- Fuel exhaustion marker at fuel zero (also forces equation generation). -/
theorem visitWhere_fzero (w : WhereE) (a : St) : visitWhere 0 w a = a.goPanic fuelMsg := by
  simp only [visitWhere]

/-- Fuel exhaustion marker at fuel zero (also forces equation generation). -/
theorem gbLoop_fzero (gs : List (Option Exp)) (b : Bool) (a : St) : gbLoop 0 gs b a = a.goPanic fuelMsg := by
  simp only [gbLoop]

/-- Fuel exhaustion marker at fuel zero (also forces equation generation). -/
theorem visitGroupBy_fzero (g : GroupByE) (a : St) : visitGroupBy 0 g a = a.goPanic fuelMsg := by
  simp only [visitGroupBy]

/-- Fuel exhaustion marker at fuel zero (also forces equation generation). -/
theorem visitHaving_fzero (h : HavingE) (a : St) : visitHaving 0 h a = a.goPanic fuelMsg := by
  simp only [visitHaving]

/-- Fuel exhaustion marker at fuel zero (also forces equation generation). -/
theorem obLoop_fzero (its : List OrderItem) (b : Bool) (a : St) : obLoop 0 its b a = a.goPanic fuelMsg := by
  simp only [obLoop]

/-- Fuel exhaustion marker at fuel zero (also forces equation generation). -/
theorem visitOrderBy_fzero (o : OrderByE) (a : St) : visitOrderBy 0 o a = a.goPanic fuelMsg := by
  simp only [visitOrderBy]

/-- Fuel exhaustion marker at fuel zero (also forces equation generation). -/
theorem visitSelectO_fzero (s : Option SelectE) (a : St) : visitSelectO 0 s a = a.goPanic fuelMsg := by
  simp only [visitSelectO]

/-- Fuel exhaustion marker at fuel zero (also forces equation generation). -/
theorem visitFromO_fzero (fr : Option FromE) (a : St) : visitFromO 0 fr a = a.goPanic fuelMsg := by
  simp only [visitFromO]

/-- Fuel exhaustion marker at fuel zero (also forces equation generation). -/
theorem visitWhereO_fzero (w : Option WhereE) (a : St) : visitWhereO 0 w a = a.goPanic fuelMsg := by
  simp only [visitWhereO]

/-- Fuel exhaustion marker at fuel zero (also forces equation generation). -/
theorem visitGroupByO_fzero (g : Option GroupByE) (a : St) : visitGroupByO 0 g a = a.goPanic fuelMsg := by
  simp only [visitGroupByO]

/-- Fuel exhaustion marker at fuel zero (also forces equation generation). -/
theorem visitHavingO_fzero (h : Option HavingE) (a : St) : visitHavingO 0 h a = a.goPanic fuelMsg := by
  simp only [visitHavingO]

/-- Fuel exhaustion marker at fuel zero (also forces equation generation). -/
theorem visitOrderByO_fzero (o : Option OrderByE) (a : St) : visitOrderByO 0 o a = a.goPanic fuelMsg := by
  simp only [visitOrderByO]

/-- Fuel exhaustion marker at fuel zero (also forces equation generation). -/
theorem visitQuery_fzero (q : QueryE) (a : St) : visitQuery 0 q a = a.goPanic fuelMsg := by
  simp only [visitQuery]

/-- Fuel exhaustion marker at fuel zero (also forces equation generation). -/
theorem setValsLoop_fzero (ss : List SetE) (b : Bool) (a : St) : setValsLoop 0 ss b a = a.goPanic fuelMsg := by
  simp only [setValsLoop]

/-- Fuel exhaustion marker at fuel zero (also forces equation generation). -/
theorem visitInsert_fzero (i : InsertE) (a : St) : visitInsert 0 i a = a.goPanic fuelMsg := by
  simp only [visitInsert]

/-- Fuel exhaustion marker at fuel zero (also forces equation generation). -/
theorem updSetLoop_fzero (ss : List SetE) (b : Bool) (a : St) : updSetLoop 0 ss b a = a.goPanic fuelMsg := by
  simp only [updSetLoop]

/-- Fuel exhaustion marker at fuel zero (also forces equation generation). -/
theorem visitUpdate_fzero (u : UpdateE) (a : St) : visitUpdate 0 u a = a.goPanic fuelMsg := by
  simp only [visitUpdate]

/-- Fuel exhaustion marker at fuel zero (also forces equation generation). -/
theorem visitDelete_fzero (dl : DeleteE) (a : St) : visitDelete 0 dl a = a.goPanic fuelMsg := by
  simp only [visitDelete]


section EvolveProof

attribute [local irreducible] visitExp visitCondition visitAggregate
attribute [local irreducible] fieldLoop visitField visitSelect joinLoop
attribute [local irreducible] joinCondLoop visitJoin visitFrom condLoop
attribute [local irreducible] visitWhere gbLoop visitGroupBy visitHaving
attribute [local irreducible] obLoop visitOrderBy visitQuery setValsLoop
attribute [local irreducible] visitInsert updSetLoop visitUpdate visitDelete
attribute [local irreducible] visitSelectO visitFromO visitWhereO
attribute [local irreducible] visitGroupByO visitHavingO visitOrderByO
attribute [local irreducible] St.wr St.goPanic writeValue visitValue
attribute [local irreducible] visitColumn visitTable visitSlice sliceInts
attribute [local irreducible] sliceStrs fromTables setColsLoop condItemPre

/-- All visitor functions at fuel `f` only extend the state (see `StExt`). -/
def EvolveAt (f : Nat) : Prop :=
  (∀ oe a, StExt a (visitExp f oe a)) ∧
  (∀ l op r a, StExt a (visitCondition f l op r a)) ∧
  (∀ n e a, StExt a (visitAggregate f n e a)) ∧
  (∀ fds b a, StExt a (fieldLoop f fds b a)) ∧
  (∀ fd a, StExt a (visitField f fd a)) ∧
  (∀ s a, StExt a (visitSelect f s a)) ∧
  (∀ js a, StExt a (joinLoop f js a)) ∧
  (∀ cs a, StExt a (joinCondLoop f cs a)) ∧
  (∀ j a, StExt a (visitJoin f j a)) ∧
  (∀ fr a, StExt a (visitFrom f fr a)) ∧
  (∀ cs i dp a, StExt a (condLoop f cs i dp a)) ∧
  (∀ w a, StExt a (visitWhere f w a)) ∧
  (∀ gs b a, StExt a (gbLoop f gs b a)) ∧
  (∀ g a, StExt a (visitGroupBy f g a)) ∧
  (∀ h a, StExt a (visitHaving f h a)) ∧
  (∀ its b a, StExt a (obLoop f its b a)) ∧
  (∀ o a, StExt a (visitOrderBy f o a)) ∧
  (∀ s a, StExt a (visitSelectO f s a)) ∧
  (∀ fr a, StExt a (visitFromO f fr a)) ∧
  (∀ w a, StExt a (visitWhereO f w a)) ∧
  (∀ g a, StExt a (visitGroupByO f g a)) ∧
  (∀ h a, StExt a (visitHavingO f h a)) ∧
  (∀ o a, StExt a (visitOrderByO f o a)) ∧
  (∀ q a, StExt a (visitQuery f q a)) ∧
  (∀ ss b a, StExt a (setValsLoop f ss b a)) ∧
  (∀ i a, StExt a (visitInsert f i a)) ∧
  (∀ ss b a, StExt a (updSetLoop f ss b a)) ∧
  (∀ u a, StExt a (visitUpdate f u a)) ∧
  (∀ dl a, StExt a (visitDelete f dl a))

set_option maxHeartbeats 1600000 in
/-- Every visitor only appends to the writer, argument list and trace; the
appended trace entries are consecutive placeholders starting at the entry
counter, which is advanced accordingly.  Induction on fuel over the whole
mutual visitor family. -/
theorem evolve : ∀ f, EvolveAt f := by
  intro f
  induction f with
  | zero =>
    refine ⟨?_, ?_, ?_, ?_, ?_, ?_, ?_, ?_, ?_, ?_, ?_, ?_, ?_, ?_, ?_, ?_, ?_, ?_, ?_, ?_, ?_, ?_, ?_, ?_, ?_, ?_, ?_, ?_, ?_⟩
    all_goals intros
    all_goals simp only [visitExp_fzero, visitCondition_fzero,
      visitAggregate_fzero, fieldLoop_fzero, visitField_fzero,
      visitSelect_fzero, joinLoop_fzero, joinCondLoop_fzero, visitJoin_fzero,
      visitFrom_fzero, condLoop_fzero, visitWhere_fzero, gbLoop_fzero,
      visitGroupBy_fzero, visitHaving_fzero, obLoop_fzero, visitOrderBy_fzero,
      visitSelectO_fzero, visitFromO_fzero, visitWhereO_fzero,
      visitGroupByO_fzero, visitHavingO_fzero, visitOrderByO_fzero,
      visitQuery_fzero, setValsLoop_fzero, visitInsert_fzero,
      updSetLoop_fzero, visitUpdate_fzero, visitDelete_fzero]
    all_goals exact ext_goPanic _ _
  | succ f ih =>
    obtain ⟨ihExp, ihCond, ihAgg, ihFieldLoop, ihField, ihSel, ihJoinLoop, ihJoinCondLoop, ihJoin, ihFrom, ihCondLoop, ihWhere, ihGbLoop, ihGb, ihHav, ihObLoop, ihOb, ihSelO, ihFromO, ihWhereO, ihGbO, ihHavO, ihObO, ihQuery, ihSetVals, ihIns, ihUpdSet, ihUpd, ihDel⟩ := ih
    refine ⟨?_, ?_, ?_, ?_, ?_, ?_, ?_, ?_, ?_, ?_, ?_, ?_, ?_, ?_, ?_, ?_, ?_, ?_, ?_, ?_, ?_, ?_, ?_, ?_, ?_, ?_, ?_, ?_, ?_⟩
    · intro oe a
      rcases oe with _ | e
      all_goals try cases e
      all_goals simp only [visitExp]
      all_goals repeat' split
      all_goals repeat
        first
        | exact StExt.rfl _
        | refine StExt.trans ?_ (ext_wr _ _)
        | refine StExt.trans ?_ (ext_goPanic _ _)
        | refine StExt.trans ?_ (ext_visitValue _ _)
        | refine StExt.trans ?_ (ext_visitTable _ _)
        | refine StExt.trans ?_ (ext_visitColumn _ _)
        | refine StExt.trans ?_ (ihCond _ _ _ _)
        | refine StExt.trans ?_ (ihAgg _ _ _)
        | refine StExt.trans ?_ (ihSel _ _)
        | refine StExt.trans ?_ (ihFrom _ _)
        | refine StExt.trans ?_ (ihJoin _ _)
        | refine StExt.trans ?_ (ihWhere _ _)
        | refine StExt.trans ?_ (ihGb _ _)
        | refine StExt.trans ?_ (ihHav _ _)
        | refine StExt.trans ?_ (ihOb _ _)
        | refine StExt.trans ?_ (ihQuery _ _)
        | refine StExt.trans ?_ (ihIns _ _)
        | refine StExt.trans ?_ (ihUpd _ _)
        | refine StExt.trans ?_ (ihDel _ _)
    · intro l op r a
      rcases l with _ | l1 <;> rcases r with _ | r1
      all_goals simp only [visitCondition]
      all_goals repeat' split
      all_goals repeat
        first
        | exact StExt.rfl _
        | refine StExt.trans ?_ (ext_wr _ _)
        | refine StExt.trans ?_ (ext_visitSlice _ _)
        | refine StExt.trans ?_ (ihExp _ _)
    · intro n e a
      rcases e with _ | e1
      all_goals simp only [visitAggregate]
      all_goals repeat' split
      all_goals repeat
        first
        | exact StExt.rfl _
        | refine StExt.trans ?_ (ext_wr _ _)
        | refine StExt.trans ?_ (ihExp _ _)
    · intro fds b a
      rcases fds with _ | ⟨fd, rest⟩
      all_goals simp only [fieldLoop]
      all_goals repeat' split
      all_goals repeat
        first
        | exact StExt.rfl _
        | refine StExt.trans ?_ (ext_wr _ _)
        | refine StExt.trans ?_ (ihField _ _)
        | refine StExt.trans ?_ (ihFieldLoop _ _ _)
    · intro fd a
      rcases fd with ⟨e, als⟩
      all_goals simp only [visitField]
      all_goals repeat' split
      all_goals repeat
        first
        | exact StExt.rfl _
        | refine StExt.trans ?_ (ext_wr _ _)
        | refine StExt.trans ?_ (ihExp _ _)
    · intro s a
      rcases s with ⟨_ | ⟨fd, fields⟩⟩
      all_goals simp only [visitSelect]
      all_goals repeat' split
      all_goals repeat
        first
        | exact StExt.rfl _
        | refine StExt.trans ?_ (ext_wr _ _)
        | refine StExt.trans ?_ (ihFieldLoop _ _ _)
    · intro js a
      rcases js with _ | ⟨j, rest⟩
      all_goals simp only [joinLoop]
      all_goals repeat' split
      all_goals repeat
        first
        | exact StExt.rfl _
        | refine StExt.trans ?_ (ext_wr _ _)
        | refine StExt.trans ?_ (ihJoin _ _)
        | refine StExt.trans ?_ (ihJoinLoop _ _)
    · intro cs a
      rcases cs with _ | ⟨x, rest⟩
      all_goals simp only [joinCondLoop]
      all_goals repeat' split
      all_goals repeat
        first
        | exact StExt.rfl _
        | refine StExt.trans ?_ (ext_wr _ _)
        | refine StExt.trans ?_ (ihExp _ _)
        | refine StExt.trans ?_ (ihJoinCondLoop _ _)
    · intro j a
      rcases j with ⟨jt, right, _ | ⟨c0, conds⟩⟩
      all_goals simp only [visitJoin]
      all_goals repeat' split
      all_goals repeat
        first
        | exact StExt.rfl _
        | refine StExt.trans ?_ (ext_wr _ _)
        | refine StExt.trans ?_ (ext_visitTable _ _)
        | refine StExt.trans ?_ (ihJoinCondLoop _ _)
    · intro fr a
      rcases fr with ⟨_ | t0, tbls, joins⟩
      all_goals simp only [visitFrom]
      all_goals repeat' split
      all_goals repeat
        first
        | exact StExt.rfl _
        | refine StExt.trans ?_ (ext_wr _ _)
        | refine StExt.trans ?_ (ext_visitTable _ _)
        | refine StExt.trans ?_ (ext_fromTables _ _ _)
        | refine StExt.trans ?_ (ihJoinLoop _ _)
    · intro cs i dp a
      rcases cs with _ | ⟨_ | e0, rest⟩
      all_goals simp only [condLoop]
      all_goals repeat' split
      all_goals repeat
        first
        | exact StExt.rfl _
        | refine StExt.trans ?_ (ext_wr _ _)
        | refine StExt.trans ?_ (ext_condItemPre _ _ _)
        | refine StExt.trans ?_ (ihExp _ _)
        | refine StExt.trans ?_ (ihCondLoop _ _ _ _)
    · intro w a
      rcases w with ⟨_ | ⟨c0, conds⟩⟩
      all_goals simp only [visitWhere]
      all_goals repeat' split
      all_goals repeat
        first
        | exact StExt.rfl _
        | refine StExt.trans ?_ (ext_wr _ _)
        | refine StExt.trans ?_ (ihCondLoop _ _ _ _)
    · intro gs b a
      rcases gs with _ | ⟨x, rest⟩
      all_goals simp only [gbLoop]
      all_goals repeat' split
      all_goals repeat
        first
        | exact StExt.rfl _
        | refine StExt.trans ?_ (ext_wr _ _)
        | refine StExt.trans ?_ (ihExp _ _)
        | refine StExt.trans ?_ (ihGbLoop _ _ _)
    · intro g a
      rcases g with ⟨_ | ⟨f0, fields⟩⟩
      all_goals simp only [visitGroupBy]
      all_goals repeat' split
      all_goals repeat
        first
        | exact StExt.rfl _
        | refine StExt.trans ?_ (ext_wr _ _)
        | refine StExt.trans ?_ (ihGbLoop _ _ _)
    · intro h a
      rcases h with ⟨_ | ⟨c0, conds⟩⟩
      all_goals simp only [visitHaving]
      all_goals repeat' split
      all_goals repeat
        first
        | exact StExt.rfl _
        | refine StExt.trans ?_ (ext_wr _ _)
        | refine StExt.trans ?_ (ihCondLoop _ _ _ _)
    · intro its b a
      rcases its with _ | ⟨⟨e, dir⟩, rest⟩
      all_goals simp only [obLoop]
      all_goals repeat' split
      all_goals repeat
        first
        | exact StExt.rfl _
        | refine StExt.trans ?_ (ext_wr _ _)
        | refine StExt.trans ?_ (ihExp _ _)
        | refine StExt.trans ?_ (ihObLoop _ _ _)
    · intro o a
      rcases o with ⟨_ | ⟨i0, items⟩⟩
      all_goals simp only [visitOrderBy]
      all_goals repeat' split
      all_goals repeat
        first
        | exact StExt.rfl _
        | refine StExt.trans ?_ (ext_wr _ _)
        | refine StExt.trans ?_ (ihObLoop _ _ _)
    · intro s a
      rcases s with _ | s1
      all_goals simp only [visitSelectO]
      all_goals repeat' split
      all_goals repeat
        first
        | exact StExt.rfl _
        | refine StExt.trans ?_ (ext_wr _ _)
        | refine StExt.trans ?_ (ihSel _ _)
    · intro fr a
      rcases fr with _ | f1
      all_goals simp only [visitFromO]
      all_goals repeat' split
      all_goals repeat
        first
        | exact StExt.rfl _
        | refine StExt.trans ?_ (ext_wr _ _)
        | refine StExt.trans ?_ (ihFrom _ _)
    · intro w a
      rcases w with _ | w1
      all_goals simp only [visitWhereO]
      all_goals repeat' split
      all_goals repeat
        first
        | exact StExt.rfl _
        | refine StExt.trans ?_ (ext_wr _ _)
        | refine StExt.trans ?_ (ihWhere _ _)
    · intro g a
      rcases g with _ | g1
      all_goals simp only [visitGroupByO]
      all_goals repeat' split
      all_goals repeat
        first
        | exact StExt.rfl _
        | refine StExt.trans ?_ (ext_wr _ _)
        | refine StExt.trans ?_ (ihGb _ _)
    · intro h a
      rcases h with _ | h1
      all_goals simp only [visitHavingO]
      all_goals repeat' split
      all_goals repeat
        first
        | exact StExt.rfl _
        | refine StExt.trans ?_ (ext_wr _ _)
        | refine StExt.trans ?_ (ihHav _ _)
    · intro o a
      rcases o with _ | o1
      all_goals simp only [visitOrderByO]
      all_goals repeat' split
      all_goals repeat
        first
        | exact StExt.rfl _
        | refine StExt.trans ?_ (ext_wr _ _)
        | refine StExt.trans ?_ (ihOb _ _)
    · intro q a
      rcases q with ⟨dist, sel, frm, whr, grp, hav, ord, off, cnt⟩
      all_goals simp only [visitQuery]
      all_goals repeat' split
      all_goals repeat
        first
        | exact StExt.rfl _
        | refine StExt.trans ?_ (ext_wr _ _)
        | refine StExt.trans ?_ (ihSelO _ _)
        | refine StExt.trans ?_ (ihFromO _ _)
        | refine StExt.trans ?_ (ihWhereO _ _)
        | refine StExt.trans ?_ (ihGbO _ _)
        | refine StExt.trans ?_ (ihHavO _ _)
        | refine StExt.trans ?_ (ihObO _ _)
    · intro ss b a
      rcases ss with _ | ⟨⟨col, v⟩, rest⟩
      all_goals simp only [setValsLoop]
      all_goals repeat' split
      all_goals repeat
        first
        | exact StExt.rfl _
        | refine StExt.trans ?_ (ext_wr _ _)
        | refine StExt.trans ?_ (ihExp _ _)
        | refine StExt.trans ?_ (ihSetVals _ _ _)
    · intro i a
      rcases i with ⟨tbl, sets⟩
      all_goals simp only [visitInsert]
      all_goals repeat' split
      all_goals repeat
        first
        | exact StExt.rfl _
        | refine StExt.trans ?_ (ext_wr _ _)
        | refine StExt.trans ?_ (ext_setColsLoop _ _ _)
        | refine StExt.trans ?_ (ihSetVals _ _ _)
    · intro ss b a
      rcases ss with _ | ⟨⟨col, v⟩, rest⟩
      all_goals simp only [updSetLoop]
      all_goals repeat' split
      all_goals repeat
        first
        | exact StExt.rfl _
        | refine StExt.trans ?_ (ext_wr _ _)
        | refine StExt.trans ?_ (ext_visitColumn _ _)
        | refine StExt.trans ?_ (ihExp _ _)
        | refine StExt.trans ?_ (ihUpdSet _ _ _)
    · intro u a
      rcases u with ⟨tbl, sets, whr, ord, cnt⟩
      all_goals simp only [visitUpdate]
      all_goals repeat' split
      all_goals repeat
        first
        | exact StExt.rfl _
        | refine StExt.trans ?_ (ext_wr _ _)
        | refine StExt.trans ?_ (ihUpdSet _ _ _)
        | refine StExt.trans ?_ (ihWhereO _ _)
        | refine StExt.trans ?_ (ihObO _ _)
    · intro dl a
      rcases dl with ⟨tbl, whr, ord, cnt⟩
      all_goals simp only [visitDelete]
      all_goals repeat' split
      all_goals repeat
        first
        | exact StExt.rfl _
        | refine StExt.trans ?_ (ext_wr _ _)
        | refine StExt.trans ?_ (ihWhereO _ _)
        | refine StExt.trans ?_ (ihObO _ _)

end EvolveProof

theorem wr_args (a : St) (s : String) : (a.wr s).args = a.args := by
  unfold St.wr; split <;> simp

theorem wr_panicked (a : St) (s : String) : (a.wr s).panicked = a.panicked := by
  unfold St.wr; split <;> simp

theorem wr_d (a : St) (s : String) : (a.wr s).d = a.d := by
  unfold St.wr; split <;> simp

theorem wr_paraIndex (a : St) (s : String) : (a.wr s).paraIndex = a.paraIndex := by
  unfold St.wr; split <;> simp

theorem visitColumn_args (c : String) (a : St) : (visitColumn c a).args = a.args := by
  unfold visitColumn; exact wr_args a c

theorem visitColumn_panicked (c : String) (a : St) :
    (visitColumn c a).panicked = a.panicked := by
  unfold visitColumn; exact wr_panicked a c

theorem visitTable_args (t : Option TableE) (a : St) : (visitTable t a).args = a.args := by
  unfold visitTable
  rcases t with _ | t
  · rfl
  · repeat' split
    all_goals simp [wr_args]

theorem visitTable_panicked (t : Option TableE) (a : St) :
    (visitTable t a).panicked = a.panicked := by
  unfold visitTable
  rcases t with _ | t
  · rfl
  · repeat' split
    all_goals simp [wr_panicked]

theorem fromTables_args (l : List (Option TableE)) : ∀ b a, (fromTables l b a).args = a.args := by
  induction l with
  | nil => intro b a; rfl
  | cons t rest ih =>
    intro b a
    show (fromTables rest true _).args = _
    rw [ih]
    split <;> simp [visitTable_args, wr_args]

theorem fromTables_panicked (l : List (Option TableE)) :
    ∀ b a, (fromTables l b a).panicked = a.panicked := by
  induction l with
  | nil => intro b a; rfl
  | cons t rest ih =>
    intro b a
    show (fromTables rest true _).panicked = _
    rw [ih]
    split <;> simp [visitTable_panicked, wr_panicked]

theorem setColsLoop_args (l : List SetE) : ∀ b a, (setColsLoop l b a).args = a.args := by
  induction l with
  | nil => intro b a; rfl
  | cons x rest ih =>
    intro b a
    cases x with
    | mk col v =>
      show (setColsLoop rest false _).args = _
      rw [ih]
      split <;> simp [visitColumn_args, wr_args]

theorem setColsLoop_panicked (l : List SetE) :
    ∀ b a, (setColsLoop l b a).panicked = a.panicked := by
  induction l with
  | nil => intro b a; rfl
  | cons x rest ih =>
    intro b a
    cases x with
    | mk col v =>
      show (setColsLoop rest false _).panicked = _
      rw [ih]
      split <;> simp [visitColumn_panicked, wr_panicked]

theorem writeValue_nz (v : GoValue) (a : St) (hp : a.panicked = none)
    (hv : v ≠ .vNil) :
    (writeValue v a).args = a.args ++ [v] ∧ (writeValue v a).panicked = none := by
  unfold writeValue
  rw [hp]
  simp only [Option.isSome_none, Bool.false_eq_true, if_false, if_neg hv]
  split <;> simp [wr_args, wr_panicked, hp]

theorem writeValue_nil (a : St) :
    (writeValue .vNil a).args = a.args ∧ (writeValue .vNil a).panicked = a.panicked := by
  unfold writeValue
  split
  · exact ⟨rfl, rfl⟩
  · simp [wr_args, wr_panicked]

theorem visitValue_spec (v : GoValue) (a : St) (hp : a.panicked = none) :
    (visitValue v a).args = a.args ++ (if v = .vNil then [] else [v]) ∧
    (visitValue v a).panicked = none := by
  unfold visitValue
  cases v with
  | vNil => simp [wr_args, wr_panicked, hp]
  | vInt x => simpa using writeValue_nz (.vInt x) a hp (by simp)
  | vStr x => simpa using writeValue_nz (.vStr x) a hp (by simp)
  | sInt l => simpa using writeValue_nz (.sInt l) a hp (by simp)
  | sStr l => simpa using writeValue_nz (.sStr l) a hp (by simp)

theorem visitSlice_scalar (v : GoValue) (a : St) (hp : a.panicked = none)
    (hs : v.isScalar = true) (hv : v ≠ .vNil) :
    (visitSlice v a).args = a.args ++ [v] ∧ (visitSlice v a).panicked = none := by
  unfold visitSlice
  cases v with
  | vNil => exact absurd rfl hv
  | vInt x => exact writeValue_nz _ a hp (by simp)
  | vStr x => exact writeValue_nz _ a hp (by simp)
  | sInt l => simp [GoValue.isScalar] at hs
  | sStr l => simp [GoValue.isScalar] at hs

theorem preVExp_none (f : Nat) : preVExp f none = [] := by
  cases f <;> rfl

theorem preVExp_value (f : Nat) (v : GoValue) (hf : 1 ≤ f) :
    preVExp f (some (.value v)) = if v = .vNil then [] else [v] := by
  obtain ⟨g, rfl⟩ := Nat.exists_eq_add_of_le hf
  rw [Nat.add_comm]
  rfl

theorem preVCondLoop_nil (f : Nat) : preVCondLoop f [] = [] := by
  cases f <;> rfl

theorem preVHav_nil (f : Nat) : preVHav f (.mk []) = [] := by
  cases f with
  | zero => rfl
  | succ g => simp only [preVHav]; exact preVCondLoop_nil g

theorem preVHavO_empty (f : Nat) (hav : Option HavingE) (hf : 1 ≤ f)
    (h : havEmptyGuard hav = true) : preVHavO f hav = [] := by
  obtain ⟨g, rfl⟩ := Nat.exists_eq_add_of_le hf
  rw [Nat.add_comm]
  cases hav with
  | none => rfl
  | some hv =>
    cases hv with
    | mk conds =>
      cases conds with
      | nil => simp only [preVHavO]; exact preVHav_nil g
      | cons c rest => simp [havEmptyGuard] at h

theorem ite_wr_args (c : Prop) [Decidable c] (a : St) (s : String) :
    (if c then a.wr s else a).args = a.args := by
  split <;> simp [wr_args]

theorem ite_wr_panicked (c : Prop) [Decidable c] (a : St) (s : String) :
    (if c then a.wr s else a).panicked = a.panicked := by
  split <;> simp [wr_panicked]

theorem ite_wr2_args (c : Prop) [Decidable c] (a : St) (s t : String) :
    (if c then (a.wr s).wr t else a).args = a.args := by
  split <;> simp [wr_args]

theorem ite_wr2_panicked (c : Prop) [Decidable c] (a : St) (s t : String) :
    (if c then (a.wr s).wr t else a).panicked = a.panicked := by
  split <;> simp [wr_panicked]

theorem condItemPre_args (i : Nat) (dp : Int) (a : St) :
    (condItemPre i dp a).args = a.args := by
  unfold condItemPre
  repeat' split
  all_goals simp [wr_args]

theorem condItemPre_panicked (i : Nat) (dp : Int) (a : St) :
    (condItemPre i dp a).panicked = a.panicked := by
  unfold condItemPre
  repeat' split
  all_goals simp [wr_panicked]

theorem preVFieldLoop_nil (f : Nat) : preVFieldLoop f [] = [] := by
  cases f <;> rfl

theorem preVJoinLoop_nil (f : Nat) : preVJoinLoop f [] = [] := by
  cases f <;> rfl

theorem preVObLoop_nil (f : Nat) : preVObLoop f [] = [] := by
  cases f <;> rfl

theorem preVSetLoop_nil (f : Nat) : preVSetLoop f [] = [] := by
  cases f <;> rfl

theorem ite_wr_flip_args (c : Prop) [Decidable c] (a : St) (s : String) :
    (if c then a else a.wr s).args = a.args := by
  split <;> simp [wr_args]

theorem ite_wr_flip_panicked (c : Prop) [Decidable c] (a : St) (s : String) :
    (if c then a else a.wr s).panicked = a.panicked := by
  split <;> simp [wr_panicked]

/-- The conditional argument-tracking property of all visitors at fuel `f`:
with sufficient fuel, on an argument-safe input (see `asExp`), starting from
a non-panicked state, each visitor appends exactly the pre-order value-leaf
payloads of its input to the argument list and does not panic. -/
def ArgsAt (f : Nat) : Prop :=
  (∀ oe, szOE oe < f → asExp f oe = true → ∀ a, a.panicked = none →
    (visitExp f oe a).args = a.args ++ preVExp f oe ∧
    (visitExp f oe a).panicked = none) ∧
  (∀ l op r, 1 + szOE l + szOE r < f → asCond f l op r = true →
    ∀ a, a.panicked = none →
    (visitCondition f l op r a).args = a.args ++ preVCond f l op r ∧
    (visitCondition f l op r a).panicked = none) ∧
  (∀ n e, 1 + szOE e < f → asAgg f n e = true → ∀ a, a.panicked = none →
    (visitAggregate f n e a).args = a.args ++ preVAgg f n e ∧
    (visitAggregate f n e a).panicked = none) ∧
  (∀ fds b, szFL fds < f → asFieldLoop f fds = true → ∀ a, a.panicked = none →
    (fieldLoop f fds b a).args = a.args ++ preVFieldLoop f fds ∧
    (fieldLoop f fds b a).panicked = none) ∧
  (∀ fd, szF fd < f → asField f fd = true → ∀ a, a.panicked = none →
    (visitField f fd a).args = a.args ++ preVField f fd ∧
    (visitField f fd a).panicked = none) ∧
  (∀ s, szSel s < f → asSel f s = true → ∀ a, a.panicked = none →
    (visitSelect f s a).args = a.args ++ preVSel f s ∧
    (visitSelect f s a).panicked = none) ∧
  (∀ js, szJL js < f → asJoinLoop f js = true → ∀ a, a.panicked = none →
    (joinLoop f js a).args = a.args ++ preVJoinLoop f js ∧
    (joinLoop f js a).panicked = none) ∧
  (∀ cs, szCL cs < f → asCondLoop f cs = true → ∀ a, a.panicked = none →
    (joinCondLoop f cs a).args = a.args ++ preVCondLoop f cs ∧
    (joinCondLoop f cs a).panicked = none) ∧
  (∀ j, szJ j < f → asJoin f j = true → ∀ a, a.panicked = none →
    (visitJoin f j a).args = a.args ++ preVJoin f j ∧
    (visitJoin f j a).panicked = none) ∧
  (∀ fr, szFrom fr < f → asFrom f fr = true → ∀ a, a.panicked = none →
    (visitFrom f fr a).args = a.args ++ preVFrom f fr ∧
    (visitFrom f fr a).panicked = none) ∧
  (∀ cs i dp, szCL cs < f → asCondLoop f cs = true → ∀ a, a.panicked = none →
    (condLoop f cs i dp a).args = a.args ++ preVCondLoop f cs ∧
    (condLoop f cs i dp a).panicked = none) ∧
  (∀ w, szW w < f → asWhere f w = true → ∀ a, a.panicked = none →
    (visitWhere f w a).args = a.args ++ preVWhere f w ∧
    (visitWhere f w a).panicked = none) ∧
  (∀ gs b, szCL gs < f → asCondLoop f gs = true → ∀ a, a.panicked = none →
    (gbLoop f gs b a).args = a.args ++ preVCondLoop f gs ∧
    (gbLoop f gs b a).panicked = none) ∧
  (∀ g, szG g < f → asGb f g = true → ∀ a, a.panicked = none →
    (visitGroupBy f g a).args = a.args ++ preVGb f g ∧
    (visitGroupBy f g a).panicked = none) ∧
  (∀ hv, szH hv < f → asHav f hv = true → ∀ a, a.panicked = none →
    (visitHaving f hv a).args = a.args ++ preVHav f hv ∧
    (visitHaving f hv a).panicked = none) ∧
  (∀ its b, szOIL its < f → asObLoop f its = true → ∀ a, a.panicked = none →
    (obLoop f its b a).args = a.args ++ preVObLoop f its ∧
    (obLoop f its b a).panicked = none) ∧
  (∀ o, szOB o < f → asOb f o = true → ∀ a, a.panicked = none →
    (visitOrderBy f o a).args = a.args ++ preVOb f o ∧
    (visitOrderBy f o a).panicked = none) ∧
  (∀ so, szOSel so < f → asSelO f so = true → ∀ a, a.panicked = none →
    (visitSelectO f so a).args = a.args ++ preVSelO f so ∧
    (visitSelectO f so a).panicked = none) ∧
  (∀ fo, szOFrom fo < f → asFromO f fo = true → ∀ a, a.panicked = none →
    (visitFromO f fo a).args = a.args ++ preVFromO f fo ∧
    (visitFromO f fo a).panicked = none) ∧
  (∀ wo, szOW wo < f → asWhereO f wo = true → ∀ a, a.panicked = none →
    (visitWhereO f wo a).args = a.args ++ preVWhereO f wo ∧
    (visitWhereO f wo a).panicked = none) ∧
  (∀ go, szOG go < f → asGbO f go = true → ∀ a, a.panicked = none →
    (visitGroupByO f go a).args = a.args ++ preVGbO f go ∧
    (visitGroupByO f go a).panicked = none) ∧
  (∀ ho, szOH ho < f → asHavO f ho = true → ∀ a, a.panicked = none →
    (visitHavingO f ho a).args = a.args ++ preVHavO f ho ∧
    (visitHavingO f ho a).panicked = none) ∧
  (∀ oo, szOOB oo < f → asObO f oo = true → ∀ a, a.panicked = none →
    (visitOrderByO f oo a).args = a.args ++ preVObO f oo ∧
    (visitOrderByO f oo a).panicked = none) ∧
  (∀ q, szQ q < f → asQuery f q = true → ∀ a, a.panicked = none →
    (visitQuery f q a).args = a.args ++ preVQuery f q ∧
    (visitQuery f q a).panicked = none) ∧
  (∀ ss b, szSetL ss < f → asSetLoop f ss = true → ∀ a, a.panicked = none →
    (setValsLoop f ss b a).args = a.args ++ preVSetLoop f ss ∧
    (setValsLoop f ss b a).panicked = none) ∧
  (∀ i, szIns i < f → asIns f i = true → ∀ a, a.panicked = none →
    (visitInsert f i a).args = a.args ++ preVIns f i ∧
    (visitInsert f i a).panicked = none) ∧
  (∀ ss b, szSetL ss < f → asSetLoop f ss = true → ∀ a, a.panicked = none →
    (updSetLoop f ss b a).args = a.args ++ preVSetLoop f ss ∧
    (updSetLoop f ss b a).panicked = none) ∧
  (∀ u, szUpd u < f → asUpd f u = true → ∀ a, a.panicked = none →
    (visitUpdate f u a).args = a.args ++ preVUpd f u ∧
    (visitUpdate f u a).panicked = none) ∧
  (∀ dl, szDel dl < f → asDel f dl = true → ∀ a, a.panicked = none →
    (visitDelete f dl a).args = a.args ++ preVDel f dl ∧
    (visitDelete f dl a).panicked = none)

set_option maxHeartbeats 1600000 in
/-- The argument-tracking induction: every visitor, on safe input with
sufficient fuel, appends exactly the pre-order value payloads. -/
theorem argsAll : ∀ f, ArgsAt f := by
  intro f
  induction f with
  | zero =>
    refine ⟨?_, ?_, ?_, ?_, ?_, ?_, ?_, ?_, ?_, ?_, ?_, ?_, ?_, ?_, ?_, ?_, ?_, ?_, ?_, ?_, ?_, ?_, ?_, ?_, ?_, ?_, ?_, ?_, ?_⟩
    all_goals intros
    all_goals omega
  | succ f ih =>
    obtain ⟨jExp, jCond, jAgg, jFieldLoop, jField, jSel, jJoinLoop, jJoinCondLoop, jJoin, jFrom, jCondLoop, jWhere, jGbLoop, jGb, jHav, jObLoop, jOb, jSelO, jFromO, jWhereO, jGbO, jHavO, jObO, jQuery, jSetVals, jIns, jUpdSet, jUpd, jDel⟩ := ih
    refine ⟨?_, ?_, ?_, ?_, ?_, ?_, ?_, ?_, ?_, ?_, ?_, ?_, ?_, ?_, ?_, ?_, ?_, ?_, ?_, ?_, ?_, ?_, ?_, ?_, ?_, ?_, ?_, ?_, ?_⟩
    · intro oe hsz hsafe a hp
      rcases oe with _ | e
      · simp [visitExp, preVExp, hp]
      · cases e
        case value v =>
          simp only [visitExp, preVExp]
          exact visitValue_spec v a hp
        case table t =>
          simp only [visitExp, preVExp]
          exact ⟨by simp [visitTable_args], by simp [visitTable_panicked, hp]⟩
        case column c =>
          simp only [visitExp, preVExp]
          exact ⟨by simp [visitColumn_args], by simp [visitColumn_panicked, hp]⟩
        case cond left op right =>
          simp only [szOE, szE] at hsz
          simp only [asExp] at hsafe
          simp only [visitExp, preVExp]
          exact jCond left op right (by omega) hsafe a hp
        case aggregate nm e1 =>
          simp only [szOE, szE] at hsz
          simp only [asExp] at hsafe
          simp only [visitExp, preVExp]
          exact jAgg nm e1 (by omega) hsafe a hp
        case sel s1 =>
          simp only [szOE, szE] at hsz
          simp only [asExp] at hsafe
          simp only [visitExp, preVExp]
          exact jSel s1 (by omega) hsafe a hp
        case fromE f1 =>
          simp only [szOE, szE] at hsz
          simp only [asExp] at hsafe
          simp only [visitExp, preVExp]
          exact jFrom f1 (by omega) hsafe a hp
        case joinE j1 =>
          simp only [szOE, szE] at hsz
          simp only [asExp] at hsafe
          simp only [visitExp, preVExp]
          exact jJoin j1 (by omega) hsafe a hp
        case whereE w1 =>
          simp only [szOE, szE] at hsz
          simp only [asExp] at hsafe
          simp only [visitExp, preVExp]
          exact jWhere w1 (by omega) hsafe a hp
        case groupByE g1 =>
          simp only [szOE, szE] at hsz
          simp only [asExp] at hsafe
          simp only [visitExp, preVExp]
          exact jGb g1 (by omega) hsafe a hp
        case havingE h1v =>
          simp only [szOE, szE] at hsz
          simp only [asExp] at hsafe
          simp only [visitExp, preVExp]
          exact jHav h1v (by omega) hsafe a hp
        case orderByE o1 =>
          simp only [szOE, szE] at hsz
          simp only [asExp] at hsafe
          simp only [visitExp, preVExp]
          exact jOb o1 (by omega) hsafe a hp
        case query q1 =>
          simp only [szOE, szE] at hsz
          simp only [asExp] at hsafe
          simp only [visitExp, preVExp]
          exact jQuery q1 (by omega) hsafe a hp
        case insert i1 =>
          simp only [szOE, szE] at hsz
          simp only [asExp] at hsafe
          simp only [visitExp, preVExp]
          exact jIns i1 (by omega) hsafe a hp
        case update u1 =>
          simp only [szOE, szE] at hsz
          simp only [asExp] at hsafe
          simp only [visitExp, preVExp]
          exact jUpd u1 (by omega) hsafe a hp
        case delete d1 =>
          simp only [szOE, szE] at hsz
          simp only [asExp] at hsafe
          simp only [visitExp, preVExp]
          exact jDel d1 (by omega) hsafe a hp
        all_goals solve
          | (simp only [visitExp, preVExp]
             simp [wr_args, wr_panicked, hp])
          | (simp only [asExp] at hsafe
             exact absurd hsafe (by simp))
    · intro l op r hsz hsafe a hp
      rcases l with _ | l1 <;> rcases r with _ | r1
      all_goals simp only [asCond, Bool.and_eq_true] at hsafe
      all_goals obtain ⟨⟨hin, hsl⟩, hsr⟩ := hsafe
      all_goals simp only [visitCondition, preVCond]
      · simp [wr_args, wr_panicked, hp, preVExp_none]
      · have hp1 : (a.wr (op ++ "(")).panicked = none := by
          simp only [wr_panicked]; exact hp
        have h1 := jExp (some r1) (by omega) hsr _ hp1
        refine ⟨?_, ?_⟩
        · simp only [wr_args]
          rw [h1.1]
          simp [wr_args, preVExp_none]
        · simp only [wr_panicked]
          exact h1.2
      · have h1 := jExp (some l1) (by omega) hsl a hp
        refine ⟨?_, ?_⟩
        · simp only [wr_args]
          rw [h1.1]
          simp [preVExp_none]
        · simp only [wr_panicked]
          exact h1.2
      · split
        · rename_i hop
          have h1 := jExp (some l1) (by omega) hsl a hp
          have hp1 : ((visitExp f (some l1) a).wr (" " ++ op ++ " " ++ "(")).panicked = none := by
            simp only [wr_panicked]; exact h1.2
          cases r1
          case value v =>
            rw [if_pos hop] at hin
            split
            · rename_i v2 hveq
              injection hveq with hv
              subst hv
              split
              · rename_i hveq2
                refine ⟨?_, ?_⟩
                · simp only [wr_args]
                  rw [h1.1, preVExp_value f v (by omega), if_pos hveq2]
                  simp
                · simp only [wr_panicked]
                  exact h1.2
              · rename_i hvne
                have hscal : v.isScalar = true := by simpa using hin
                have h2 := visitSlice_scalar v _ hp1 hscal hvne
                refine ⟨?_, ?_⟩
                · simp only [wr_args]
                  rw [h2.1]
                  simp only [wr_args]
                  rw [h1.1, preVExp_value f v (by omega), if_neg hvne,
                    List.append_assoc]
                · simp only [wr_panicked]
                  exact h2.2
            · rename_i hvne
              exact absurd rfl (hvne v)
          all_goals
            have h2 := jExp _ (by omega) hsr _ hp1
          all_goals refine ⟨?_, ?_⟩
          all_goals solve
            | (simp only [wr_args]
               rw [h2.1]
               simp only [wr_args]
               rw [h1.1, List.append_assoc])
            | (simp only [wr_panicked]
               exact h2.2)
        · rename_i hop
          have h1 := jExp (some l1) (by omega) hsl a hp
          have hp1 : ((visitExp f (some l1) a).wr (" " ++ op ++ " ")).panicked = none := by
            simp only [wr_panicked]; exact h1.2
          have h2 := jExp (some r1) (by omega) hsr _ hp1
          refine ⟨?_, ?_⟩
          · rw [h2.1]
            simp only [wr_args]
            rw [h1.1, List.append_assoc]
          · exact h2.2
    · intro n e hsz hsafe a hp
      rcases e with _ | e1
      · simp [visitAggregate, preVAgg, hp]
      · simp only [visitAggregate, preVAgg]
        simp only [asAgg, Bool.and_eq_true] at hsafe
        split
        · rename_i hne
          simp [hne] at hsafe
        · have hp1 : (a.wr (n ++ "(")).panicked = none := by
            simp only [wr_panicked]; exact hp
          have h1 := jExp (some e1) (by omega) hsafe.2 _ hp1
          refine ⟨?_, ?_⟩
          · simp only [wr_args]
            rw [h1.1]
            simp only [wr_args]
          · simp only [wr_panicked]
            exact h1.2
    · intro fds b hsz hsafe a hp
      rcases fds with _ | ⟨fd, rest⟩
      · simp [fieldLoop, preVFieldLoop, hp]
      · simp only [fieldLoop, preVFieldLoop]
        simp only [szFL] at hsz
        simp only [asFieldLoop, Bool.and_eq_true] at hsafe
        have hp1 : (if b = true then a else a.wr ",").panicked = none := by
          rw [ite_wr_flip_panicked]; exact hp
        have h1 := jField fd (by omega) hsafe.1 _ hp1
        have h2 := jFieldLoop rest false (by omega) hsafe.2 _ h1.2
        refine ⟨?_, ?_⟩
        · rw [h2.1, h1.1, ite_wr_flip_args, List.append_assoc]
        · exact h2.2
    · intro fd hsz hsafe a hp
      rcases fd with ⟨e, als⟩
      simp only [visitField, preVField]
      simp only [szF] at hsz
      simp only [asField] at hsafe
      have h1 := jExp e (by omega) hsafe a hp
      split
      · exact h1
      · refine ⟨?_, ?_⟩
        · simp only [wr_args]
          exact h1.1
        · simp only [wr_panicked]
          exact h1.2
    · intro s hsz hsafe a hp
      rcases s with ⟨_ | ⟨fd, fields⟩⟩
      · simp [visitSelect, preVSel, preVFieldLoop_nil, wr_args, wr_panicked, hp]
      · simp only [visitSelect, preVSel]
        simp only [szSel] at hsz
        simp only [asSel] at hsafe
        have h1 := jFieldLoop (fd :: fields) true (by omega) hsafe a hp
        refine ⟨?_, ?_⟩
        · simp only [wr_args]
          exact h1.1
        · simp only [wr_panicked]
          exact h1.2
    · intro js hsz hsafe a hp
      rcases js with _ | ⟨j, rest⟩
      · simp [joinLoop, preVJoinLoop, hp]
      · simp only [joinLoop, preVJoinLoop]
        simp only [szJL] at hsz
        simp only [asJoinLoop, Bool.and_eq_true] at hsafe
        have hp1 : (a.wr ansi.LineBreak).panicked = none := by
          simp only [wr_panicked]; exact hp
        have h1 := jJoin j (by omega) hsafe.1 _ hp1
        have h2 := jJoinLoop rest (by omega) hsafe.2 _ h1.2
        refine ⟨?_, ?_⟩
        · rw [h2.1, h1.1]
          simp only [wr_args]
          rw [List.append_assoc]
        · exact h2.2
    · intro cs hsz hsafe a hp
      rcases cs with _ | ⟨x, rest⟩
      · simp [joinCondLoop, preVCondLoop, hp]
      · simp only [joinCondLoop, preVCondLoop]
        simp only [szCL] at hsz
        simp only [asCondLoop, Bool.and_eq_true] at hsafe
        have hp0 : (a.wr ansi.Blank).panicked = none := by
          simp only [wr_panicked]; exact hp
        have h1 := jExp x (by omega) hsafe.1 _ hp0
        have hp2 : ((visitExp f x (a.wr ansi.Blank)).wr ansi.Blank).panicked = none := by
          simp only [wr_panicked]; exact h1.2
        have h2 := jJoinCondLoop rest (by omega) hsafe.2 _ hp2
        refine ⟨?_, ?_⟩
        · rw [h2.1]
          simp only [wr_args]
          rw [h1.1]
          simp only [wr_args]
          rw [List.append_assoc]
        · exact h2.2
    · intro j hsz hsafe a hp
      rcases j with ⟨jt, right, _ | ⟨c0, conds⟩⟩
      · simp [visitJoin, preVJoin, preVCondLoop_nil, wr_args, wr_panicked,
          visitTable_args, visitTable_panicked, hp]
      · simp only [visitJoin, preVJoin]
        simp only [szJ] at hsz
        simp only [asJoin] at hsafe
        have hp1 : (((visitTable right ((a.wr jt).wr ansi.Blank)).wr
            ansi.Blank).wr ansi.On).panicked = none := by
          simp only [wr_panicked, visitTable_panicked]; exact hp
        have h1 := jJoinCondLoop (c0 :: conds) (by omega) hsafe _ hp1
        refine ⟨?_, ?_⟩
        · rw [h1.1]
          simp only [wr_args, visitTable_args]
        · exact h1.2
    · intro fr hsz hsafe a hp
      rcases fr with ⟨_ | t0, tbls, joins⟩
      all_goals simp only [visitFrom, preVFrom]
      all_goals simp only [szFrom] at hsz
      all_goals simp only [asFrom] at hsafe
      · have hp1 : (fromTables tbls false
            (a.wr (ansi.LineBreak ++ ansi.From ++ " "))).panicked = none := by
          simp only [fromTables_panicked, wr_panicked]; exact hp
        have h1 := jJoinLoop joins (by omega) hsafe _ hp1
        refine ⟨?_, ?_⟩
        · simp only [wr_args]
          rw [h1.1]
          simp only [fromTables_args, wr_args]
        · simp only [wr_panicked]
          exact h1.2
      · have hp1 : (fromTables tbls true (visitTable (some t0)
            (a.wr (ansi.LineBreak ++ ansi.From ++ " ")))).panicked = none := by
          simp only [fromTables_panicked, visitTable_panicked, wr_panicked]
          exact hp
        have h1 := jJoinLoop joins (by omega) hsafe _ hp1
        refine ⟨?_, ?_⟩
        · simp only [wr_args]
          rw [h1.1]
          simp only [fromTables_args, visitTable_args, wr_args]
        · simp only [wr_panicked]
          exact h1.2
    · intro cs i dp hsz hsafe a hp
      rcases cs with _ | ⟨_ | e0, rest⟩
      · simp [condLoop, preVCondLoop, hp]
      · simp only [condLoop, preVCondLoop]
        simp only [szCL] at hsz
        simp only [asCondLoop, Bool.and_eq_true] at hsafe
        have h1 := jCondLoop rest (i + 1) dp (by omega) hsafe.2 a hp
        refine ⟨?_, ?_⟩
        · rw [h1.1, preVExp_none]
          simp
        · exact h1.2
      · simp only [condLoop, preVCondLoop]
        simp only [szCL] at hsz
        simp only [asCondLoop, Bool.and_eq_true] at hsafe
        have hp1 : (condItemPre i (if isCloseParen e0 then dp - 1 else dp)
            a).panicked = none := by
          rw [condItemPre_panicked]; exact hp
        have h1 := jExp (some e0) (by omega) hsafe.1 _ hp1
        have h2 := jCondLoop rest (i + 1)
          (if isOpenParen e0 then (if isCloseParen e0 then dp - 1 else dp) + 1
           else (if isCloseParen e0 then dp - 1 else dp))
          (by omega) hsafe.2 _ h1.2
        refine ⟨?_, ?_⟩
        · rw [h2.1, h1.1, condItemPre_args, List.append_assoc]
        · exact h2.2
    · intro w hsz hsafe a hp
      rcases w with ⟨_ | ⟨c0, conds⟩⟩
      · simp [visitWhere, preVWhere, preVCondLoop_nil, hp]
      · simp only [visitWhere, preVWhere]
        simp only [szW] at hsz
        simp only [asWhere] at hsafe
        have hp1 : (a.wr (ansi.LineBreak ++ ansi.Where ++
            ansi.LineBreak)).panicked = none := by
          simp only [wr_panicked]; exact hp
        have h1 := jCondLoop (c0 :: conds) 0 0 (by omega) hsafe _ hp1
        refine ⟨?_, ?_⟩
        · simp only [wr_args]
          rw [h1.1]
          simp only [wr_args]
        · simp only [wr_panicked]
          exact h1.2
    · intro gs b hsz hsafe a hp
      rcases gs with _ | ⟨x, rest⟩
      · simp [gbLoop, preVCondLoop, hp]
      · simp only [gbLoop, preVCondLoop]
        simp only [szCL] at hsz
        simp only [asCondLoop, Bool.and_eq_true] at hsafe
        have hp1 : (if b = true then a else a.wr ",").panicked = none := by
          rw [ite_wr_flip_panicked]; exact hp
        have h1 := jExp x (by omega) hsafe.1 _ hp1
        have h2 := jGbLoop rest false (by omega) hsafe.2 _ h1.2
        refine ⟨?_, ?_⟩
        · rw [h2.1, h1.1, ite_wr_flip_args, List.append_assoc]
        · exact h2.2
    · intro g hsz hsafe a hp
      rcases g with ⟨_ | ⟨f0, fields⟩⟩
      · simp [visitGroupBy, preVGb, preVCondLoop_nil, hp]
      · simp only [visitGroupBy, preVGb]
        simp only [szG] at hsz
        simp only [asGb] at hsafe
        have hp1 : ((a.wr (ansi.LineBreak ++ ansi.GroupBy)).wr
            ansi.Blank).panicked = none := by
          simp only [wr_panicked]; exact hp
        have h1 := jGbLoop (f0 :: fields) true (by omega) hsafe _ hp1
        refine ⟨?_, ?_⟩
        · simp only [wr_args]
          rw [h1.1]
          simp only [wr_args]
        · simp only [wr_panicked]
          exact h1.2
    · intro hv hsz hsafe a hp
      rcases hv with ⟨_ | ⟨c0, conds⟩⟩
      · simp [visitHaving, preVHav, preVCondLoop_nil, hp]
      · simp only [visitHaving, preVHav]
        simp only [szH] at hsz
        simp only [asHav] at hsafe
        have hp1 : (a.wr (ansi.LineBreak ++ ansi.Having ++
            ansi.LineBreak)).panicked = none := by
          simp only [wr_panicked]; exact hp
        have h1 := jCondLoop (c0 :: conds) 0 0 (by omega) hsafe _ hp1
        refine ⟨?_, ?_⟩
        · simp only [wr_args]
          rw [h1.1]
          simp only [wr_args]
        · simp only [wr_panicked]
          exact h1.2
    · intro its b hsz hsafe a hp
      rcases its with _ | ⟨⟨e, dir⟩, rest⟩
      · simp [obLoop, preVObLoop, hp]
      · simp only [obLoop, preVObLoop]
        simp only [szOIL, szOI] at hsz
        simp only [asObLoop, Bool.and_eq_true] at hsafe
        have hp1 : (if b = true then a else a.wr ",").panicked = none := by
          rw [ite_wr_flip_panicked]; exact hp
        have h1 := jExp e (by omega) hsafe.1 _ hp1
        have hp2 : ((visitExp f e (if b = true then a else a.wr ",")).wr
            (ansi.Blank ++ dir)).panicked = none := by
          simp only [wr_panicked]; exact h1.2
        have h2 := jObLoop rest false (by omega) hsafe.2 _ hp2
        refine ⟨?_, ?_⟩
        · rw [h2.1]
          simp only [wr_args]
          rw [h1.1, ite_wr_flip_args, List.append_assoc]
        · exact h2.2
    · intro o hsz hsafe a hp
      rcases o with ⟨_ | ⟨i0, items⟩⟩
      · simp [visitOrderBy, preVOb, preVObLoop_nil, hp]
      · simp only [visitOrderBy, preVOb]
        simp only [szOB] at hsz
        simp only [asOb] at hsafe
        have hp1 : ((a.wr (ansi.LineBreak ++ ansi.OrderBy)).wr
            ansi.Blank).panicked = none := by
          simp only [wr_panicked]; exact hp
        have h1 := jObLoop (i0 :: items) true (by omega) hsafe _ hp1
        refine ⟨?_, ?_⟩
        · simp only [wr_args]
          rw [h1.1]
          simp only [wr_args]
        · simp only [wr_panicked]
          exact h1.2
    · intro so hsz hsafe a hp
      rcases so with _ | s1
      · simp [visitSelectO, preVSelO, wr_args, wr_panicked, hp]
      · simp only [visitSelectO, preVSelO]
        simp only [szOSel] at hsz
        simp only [asSelO] at hsafe
        exact jSel s1 (by omega) hsafe a hp
    · intro fo hsz hsafe a hp
      rcases fo with _ | f1
      · simp [visitFromO, preVFromO, hp]
      · simp only [visitFromO, preVFromO]
        simp only [szOFrom] at hsz
        simp only [asFromO] at hsafe
        exact jFrom f1 (by omega) hsafe a hp
    · intro wo hsz hsafe a hp
      rcases wo with _ | w1
      · simp [visitWhereO, preVWhereO, hp]
      · simp only [visitWhereO, preVWhereO]
        simp only [szOW] at hsz
        simp only [asWhereO] at hsafe
        exact jWhere w1 (by omega) hsafe a hp
    · intro go hsz hsafe a hp
      rcases go with _ | g1
      · simp [visitGroupByO, preVGbO, hp]
      · simp only [visitGroupByO, preVGbO]
        simp only [szOG] at hsz
        simp only [asGbO] at hsafe
        exact jGb g1 (by omega) hsafe a hp
    · intro ho hsz hsafe a hp
      rcases ho with _ | h1v
      · simp [visitHavingO, preVHavO, hp]
      · simp only [visitHavingO, preVHavO]
        simp only [szOH] at hsz
        simp only [asHavO] at hsafe
        exact jHav h1v (by omega) hsafe a hp
    · intro oo hsz hsafe a hp
      rcases oo with _ | o1
      · simp [visitOrderByO, preVObO, hp]
      · simp only [visitOrderByO, preVObO]
        simp only [szOOB] at hsz
        simp only [asObO] at hsafe
        exact jOb o1 (by omega) hsafe a hp
    · intro q hsz hsafe a hp
      rcases q with ⟨dist, sel, frm, whr, grp, hav, ord, off, cnt⟩
      simp only [visitQuery, preVQuery]
      simp only [szQ] at hsz
      simp only [asQuery, Bool.and_eq_true] at hsafe
      obtain ⟨⟨⟨⟨⟨⟨hg, hs1⟩, hs2⟩, hs3⟩, hs4⟩, hs5⟩, hs6⟩ := hsafe
      have hp2 : (if dist = true then
          (((a.wr ansi.Select).wr ansi.Blank).wr ansi.Distinct).wr ansi.Blank
          else (a.wr ansi.Select).wr ansi.Blank).panicked = none := by
        split <;> simp [wr_panicked, hp]
      have h3 := jSelO sel (by omega) hs1 _ hp2
      have h4 := jFromO frm (by omega) hs2 _ h3.2
      have h5 := jWhereO whr (by omega) hs3 _ h4.2
      have h6 := jGbO grp (by omega) hs4 _ h5.2
      by_cases hga : grpActive grp = true
      · rw [if_pos hga]
        have h7 := jHavO hav (by omega) hs5 _ h6.2
        have h8 := jObO ord (by omega) hs6 _ h7.2
        refine ⟨?_, ?_⟩
        · simp only [wr_args, ite_wr2_args]
          rw [h8.1, h7.1, h6.1, h5.1, h4.1, h3.1]
          simp only [ite_wr2_args, wr_args]
          simp [List.append_assoc]
        · simp only [wr_panicked, ite_wr2_panicked]
          exact h8.2
      · rw [if_neg hga]
        have hEG : havEmptyGuard hav = true := by
          have hor : grpActive grp = true ∨ havEmptyGuard hav = true := by
            simpa using hg
          rcases hor with hcase | hcase
          · exact absurd hcase hga
          · exact hcase
        have h8 := jObO ord (by omega) hs6 _ h6.2
        refine ⟨?_, ?_⟩
        · simp only [wr_args, ite_wr2_args]
          rw [h8.1, h6.1, h5.1, h4.1, h3.1,
            preVHavO_empty f hav (by omega) hEG]
          simp only [ite_wr2_args, wr_args]
          simp [List.append_assoc]
        · simp only [wr_panicked, ite_wr2_panicked]
          exact h8.2
    · intro ss b hsz hsafe a hp
      rcases ss with _ | ⟨⟨col, v⟩, rest⟩
      · simp [setValsLoop, preVSetLoop, hp]
      · simp only [setValsLoop, preVSetLoop]
        simp only [szSetL, szSet] at hsz
        simp only [asSetLoop, Bool.and_eq_true] at hsafe
        have hp1 : (if b = true then a else a.wr ",").panicked = none := by
          rw [ite_wr_flip_panicked]; exact hp
        have h1 := jExp v (by omega) hsafe.1 _ hp1
        have h2 := jSetVals rest false (by omega) hsafe.2 _ h1.2
        refine ⟨?_, ?_⟩
        · rw [h2.1, h1.1, ite_wr_flip_args, List.append_assoc]
        · exact h2.2
    · intro i hsz hsafe a hp
      rcases i with ⟨tbl, sets⟩
      simp only [visitInsert, preVIns]
      simp only [szIns] at hsz
      simp only [asIns] at hsafe
      have hp1 : (((((setColsLoop sets true ((a.wr (ansi.InsertInto ++
          ansi.Blank ++ tbl)).wr "(")).wr ")").wr ansi.LineBreak).wr
          ansi.Values).wr "(").panicked = none := by
        simp only [wr_panicked, setColsLoop_panicked]; exact hp
      have h1 := jSetVals sets true (by omega) hsafe _ hp1
      refine ⟨?_, ?_⟩
      · simp only [wr_args]
        rw [h1.1]
        simp only [wr_args, setColsLoop_args]
      · simp only [wr_panicked]
        exact h1.2
    · intro ss b hsz hsafe a hp
      rcases ss with _ | ⟨⟨col, v⟩, rest⟩
      · simp [updSetLoop, preVSetLoop, hp]
      · simp only [updSetLoop, preVSetLoop]
        simp only [szSetL, szSet] at hsz
        simp only [asSetLoop, Bool.and_eq_true] at hsafe
        have hp1 : ((visitColumn col (if b = true then a else a.wr ",")).wr
            ansi.Equals).panicked = none := by
          simp only [wr_panicked, visitColumn_panicked, ite_wr_flip_panicked]
          exact hp
        have h1 := jExp v (by omega) hsafe.1 _ hp1
        have h2 := jUpdSet rest false (by omega) hsafe.2 _ h1.2
        refine ⟨?_, ?_⟩
        · rw [h2.1, h1.1]
          simp only [wr_args, visitColumn_args, ite_wr_flip_args]
          rw [List.append_assoc]
        · exact h2.2
    · intro u hsz hsafe a hp
      rcases u with ⟨tbl, sets, whr, ord, cnt⟩
      simp only [visitUpdate, preVUpd]
      simp only [szUpd] at hsz
      simp only [asUpd, Bool.and_eq_true] at hsafe
      obtain ⟨⟨hss, hw⟩, ho⟩ := hsafe
      have hp1 : (a.wr (ansi.Update ++ ansi.Blank ++ tbl ++ ansi.Blank ++
          ansi.Set ++ ansi.Blank ++ ansi.LineBreak)).panicked = none := by
        simp only [wr_panicked]; exact hp
      have h2 := jUpdSet sets true (by omega) hss _ hp1
      have h3 := jWhereO whr (by omega) hw _ h2.2
      have h4 := jObO ord (by omega) ho _ h3.2
      refine ⟨?_, ?_⟩
      · simp only [wr_args, ite_wr2_args]
        rw [h4.1, h3.1, h2.1]
        simp only [wr_args]
        simp [List.append_assoc]
      · simp only [wr_panicked, ite_wr2_panicked]
        exact h4.2
    · intro dl hsz hsafe a hp
      rcases dl with ⟨tbl, whr, ord, cnt⟩
      simp only [visitDelete, preVDel]
      simp only [szDel] at hsz
      simp only [asDel, Bool.and_eq_true] at hsafe
      obtain ⟨hw, ho⟩ := hsafe
      have hp1 : (a.wr (ansi.Delete ++ ansi.Blank ++ ansi.From ++ ansi.Blank ++
          tbl)).panicked = none := by
        simp only [wr_panicked]; exact hp
      have h3 := jWhereO whr (by omega) hw _ hp1
      have h4 := jObO ord (by omega) ho _ h3.2
      refine ⟨?_, ?_⟩
      · simp only [wr_args, ite_wr2_args]
        rw [h4.1, h3.1]
        simp only [wr_args]
        simp [List.append_assoc]
      · simp only [wr_panicked, ite_wr2_panicked]
        exact h4.2


/-- `phL` always lists exactly `k` placeholders. -/
theorem phL_length (d : Dialecter) (i k : Nat) : (phL d i k).length = k := by
  simp [phL]

/-- On a non-panicked state `wr` appends its text. -/
theorem wr_w (a : St) (s : String) (hp : a.panicked = none) :
    (a.wr s).w = a.w ++ s := by
  simp [St.wr, hp]

/-- Entry corollary of `argsAll`: `visitQuery` on safe input appends
exactly the pre-order value payloads and never panics. -/
theorem argsQuery (f : Nat) (q : QueryE) (hsz : szQ q < f)
    (hs : asQuery f q = true) (a : St) (hp : a.panicked = none) :
    (visitQuery f q a).args = a.args ++ preVQuery f q ∧
    (visitQuery f q a).panicked = none := by
  obtain ⟨_, _, _, _, _, _, _, _, _, _, _, _, _, _, _, _, _, _, _, _, _, _, _,
    h, _, _, _, _, _⟩ := argsAll f
  exact h q hsz hs a hp

/-- Entry corollary of `argsAll` for `visitInsert`. -/
theorem argsIns (f : Nat) (i : InsertE) (hsz : szIns i < f)
    (hs : asIns f i = true) (a : St) (hp : a.panicked = none) :
    (visitInsert f i a).args = a.args ++ preVIns f i ∧
    (visitInsert f i a).panicked = none := by
  obtain ⟨_, _, _, _, _, _, _, _, _, _, _, _, _, _, _, _, _, _, _, _, _, _, _,
    _, _, h, _, _, _⟩ := argsAll f
  exact h i hsz hs a hp

/-- Entry corollary of `argsAll` for `visitUpdate`. -/
theorem argsUpd (f : Nat) (u : UpdateE) (hsz : szUpd u < f)
    (hs : asUpd f u = true) (a : St) (hp : a.panicked = none) :
    (visitUpdate f u a).args = a.args ++ preVUpd f u ∧
    (visitUpdate f u a).panicked = none := by
  obtain ⟨_, _, _, _, _, _, _, _, _, _, _, _, _, _, _, _, _, _, _, _, _, _, _,
    _, _, _, _, h, _⟩ := argsAll f
  exact h u hsz hs a hp

/-- Entry corollary of `argsAll` for `visitDelete`. -/
theorem argsDel (f : Nat) (dl : DeleteE) (hsz : szDel dl < f)
    (hs : asDel f dl = true) (a : St) (hp : a.panicked = none) :
    (visitDelete f dl a).args = a.args ++ preVDel f dl ∧
    (visitDelete f dl a).panicked = none := by
  obtain ⟨_, _, _, _, _, _, _, _, _, _, _, _, _, _, _, _, _, _, _, _, _, _, _,
    _, _, _, _, _, h⟩ := argsAll f
  exact h dl hsz hs a hp

/-- C1: for every argument-safe expression tree the statement compiler
accepts, the returned argument list is exactly the pre-order list of the
payloads of the non-nil literal `Value` leaves of the tree -- one entry
per such leaf, in left-to-right pre-order.  (Amended: without the
safety condition the sentence fails, e.g. a literal integer-slice `Value`
on the right of `IN` is inlined into the SQL text and binds nothing.) -/
theorem C1_preorder_args (d : Dialecter) (e : Exp) (q : String)
    (a : List GoValue) (tr : List String)
    (hok : StatementCompiler.Compile d (some e) = .ok q a tr)
    (hsafe : argSafeTop e = true) :
    a = preVals e := by
  cases e
  case query q1 =>
    simp only [argSafeTop] at hsafe
    have h := argsQuery (szE (.query q1)) q1 (by simp only [szE]; omega)
      hsafe (stInit d) rfl
    have hfin : finish (visitQuery (szE (.query q1)) q1 (stInit d)) =
        .ok (visitQuery (szE (.query q1)) q1 (stInit d)).w
          (visitQuery (szE (.query q1)) q1 (stInit d)).args
          (visitQuery (szE (.query q1)) q1 (stInit d)).trace := by
      unfold finish
      rw [h.2]
    simp only [StatementCompiler.Compile] at hok
    rw [hfin] at hok
    injection hok with hq ha ht
    rw [← ha, h.1]
    simp [stInit, preVals]
  case update u1 =>
    simp only [argSafeTop] at hsafe
    have h := argsUpd (szE (.update u1)) u1 (by simp only [szE]; omega)
      hsafe (stInit d) rfl
    have hfin : finish (visitUpdate (szE (.update u1)) u1 (stInit d)) =
        .ok (visitUpdate (szE (.update u1)) u1 (stInit d)).w
          (visitUpdate (szE (.update u1)) u1 (stInit d)).args
          (visitUpdate (szE (.update u1)) u1 (stInit d)).trace := by
      unfold finish
      rw [h.2]
    simp only [StatementCompiler.Compile] at hok
    rw [hfin] at hok
    injection hok with hq ha ht
    rw [← ha, h.1]
    simp [stInit, preVals]
  case insert i1 =>
    simp only [argSafeTop] at hsafe
    have h := argsIns (szE (.insert i1)) i1 (by simp only [szE]; omega)
      hsafe (stInit d) rfl
    have hfin : finish (visitInsert (szE (.insert i1)) i1 (stInit d)) =
        .ok (visitInsert (szE (.insert i1)) i1 (stInit d)).w
          (visitInsert (szE (.insert i1)) i1 (stInit d)).args
          (visitInsert (szE (.insert i1)) i1 (stInit d)).trace := by
      unfold finish
      rw [h.2]
    simp only [StatementCompiler.Compile] at hok
    rw [hfin] at hok
    injection hok with hq ha ht
    rw [← ha, h.1]
    simp [stInit, preVals]
  case delete d1 =>
    simp only [argSafeTop] at hsafe
    have h := argsDel (szE (.delete d1)) d1 (by simp only [szE]; omega)
      hsafe (stInit d) rfl
    have hfin : finish (visitDelete (szE (.delete d1)) d1 (stInit d)) =
        .ok (visitDelete (szE (.delete d1)) d1 (stInit d)).w
          (visitDelete (szE (.delete d1)) d1 (stInit d)).args
          (visitDelete (szE (.delete d1)) d1 (stInit d)).trace := by
      unfold finish
      rw [h.2]
    simp only [StatementCompiler.Compile] at hok
    rw [hfin] at hok
    injection hok with hq ha ht
    rw [← ha, h.1]
    simp [stInit, preVals]
  all_goals simp [argSafeTop] at hsafe

/-- Witness for C1: a one-column ANSI update binds exactly its one literal
value, matching the pre-order payload list. -/
theorem C1_preorder_args_witness :
    (StatementCompiler.Compile AnsiDialecter (some (.update (.mk "t"
        [.mk "c" (some (.value (.vInt 5)))] none none 0)))
      = .ok "UPDATE t SET \nc= ? ;" [.vInt 5] [" ? "]) ∧
    argSafeTop (.update (.mk "t" [.mk "c" (some (.value (.vInt 5)))]
      none none 0)) = true ∧
    [GoValue.vInt 5] = preVals (.update (.mk "t"
      [.mk "c" (some (.value (.vInt 5)))] none none 0)) :=
  ⟨rfl, rfl, C1_preorder_args AnsiDialecter
    (.update (.mk "t" [.mk "c" (some (.value (.vInt 5)))] none none 0))
    "UPDATE t SET \nc= ? ;" [.vInt 5] [" ? "] rfl rfl⟩

/-- Counterexample to the unamended C1 sentence: this query holds exactly
one literal `Value` leaf with a non-nil payload (the integer slice on the
right of `IN`), yet the successful compile returns an empty argument
list -- the slice is inlined into the SQL text, not bound. -/
theorem C1_preorder_args_counterexample :
    StatementCompiler.Compile AnsiDialecter (some (.query (.mk false none
        none (some (.mk [some (.cond (some (.column "c")) ansi.In
          (some (.value (.sInt [1, 2, 3]))))])) none none none 0 0)))
      = .ok "SELECT *\nWHERE\nc IN (1,2,3) ;" [] [] ∧
    preVals (.query (.mk false none none (some (.mk [some (.cond
        (some (.column "c")) ansi.In (some (.value (.sInt [1, 2, 3]))))]))
        none none none 0 0))
      = [.sInt [1, 2, 3]] :=
  ⟨rfl, rfl⟩

/-- C3: the spec promises a structured error and "never panics" for
malformed input, but the code panics on both counts: a nil expression
passed to `StatementCompiler.Compile` (the error is assigned without
returning, and the following `exp.Node()` dereferences nil), and an
unsupported node kind reached mid-tree (`visitExp` calls `panic`
directly).  Only the `AnsiDriver.Compile` entry point returns the
structured nil error. -/
theorem C3_malformed_input_panics :
    StatementCompiler.Compile AnsiDialecter none =
      .panicked "runtime error: invalid memory address or nil pointer dereference" ∧
    StatementCompiler.Compile AnsiDialecter (some (.query (.mk false none
        none (some (.mk [some (.textE (.mk "x" []))])) none none none 0 0)))
      = .panicked (unsupMsg "Text") ∧
    AnsiDriver.Compile AnsiDialecter none = .err .nilExpression :=
  ⟨rfl, rfl, rfl⟩

/-- C4: an `IN` condition over a literal integer-slice `Value` renders the
parenthesized comma-separated literals in sequence order and appends NO
bound arguments (the slice is inlined); an empty slice renders `IN ()`
with no arguments.  (Amended: the spec sentence claims three bound
arguments for a 3-element slice; the compiler inlines integer slices and
binds nothing.) -/
theorem C4_in_slice_inline (x y z : Int) (st : St) (hp : st.panicked = none) :
    ((visitCondition 2 (some (.column "c")) ansi.In
        (some (.value (.sInt [x, y, z]))) st).w
      = st.w ++ "c" ++ " " ++ ansi.In ++ " " ++ "(" ++ toString x ++ ","
        ++ toString y ++ "," ++ toString z ++ ")") ∧
    (visitCondition 2 (some (.column "c")) ansi.In
        (some (.value (.sInt [x, y, z]))) st).args = st.args ∧
    ((visitCondition 2 (some (.column "c")) ansi.In
        (some (.value (.sInt []))) st).w
      = st.w ++ "c" ++ " " ++ ansi.In ++ " " ++ "(" ++ ")") ∧
    (visitCondition 2 (some (.column "c")) ansi.In
        (some (.value (.sInt []))) st).args = st.args := by
  refine ⟨?_, ?_, ?_, ?_⟩ <;>
    simp [visitCondition, visitExp, visitColumn, visitSlice, sliceInts,
      St.wr, hp, ansi.In, ansi.NotIn, String.append_assoc]

/-- Witness for C4 at the slice `[1, 2, 3]` from the fresh ANSI state. -/
theorem C4_in_slice_inline_witness :
    (stInit AnsiDialecter).panicked = none ∧
    (((visitCondition 2 (some (.column "c")) ansi.In
        (some (.value (.sInt [1, 2, 3]))) (stInit AnsiDialecter)).w
      = (stInit AnsiDialecter).w ++ "c" ++ " " ++ ansi.In ++ " " ++ "("
        ++ toString (1 : Int) ++ "," ++ toString (2 : Int) ++ ","
        ++ toString (3 : Int) ++ ")") ∧
    (visitCondition 2 (some (.column "c")) ansi.In
        (some (.value (.sInt [1, 2, 3]))) (stInit AnsiDialecter)).args
      = (stInit AnsiDialecter).args ∧
    ((visitCondition 2 (some (.column "c")) ansi.In
        (some (.value (.sInt []))) (stInit AnsiDialecter)).w
      = (stInit AnsiDialecter).w ++ "c" ++ " " ++ ansi.In ++ " " ++ "("
        ++ ")") ∧
    (visitCondition 2 (some (.column "c")) ansi.In
        (some (.value (.sInt []))) (stInit AnsiDialecter)).args
      = (stInit AnsiDialecter).args) :=
  ⟨rfl, C4_in_slice_inline 1 2 3 (stInit AnsiDialecter) rfl⟩

/-- Counterexample to the unamended C4 sentence: the whole-statement
compile of an `IN` over the literal slice `[7, 8, 9]` succeeds with an
EMPTY argument list, not three bound arguments. -/
theorem C4_in_slice_inline_counterexample :
    StatementCompiler.Compile AnsiDialecter (some (.query (.mk false none
        none (some (.mk [some (.cond (some (.column "k")) ansi.In
          (some (.value (.sInt [7, 8, 9]))))])) none none none 0 0)))
      = .ok "SELECT *\nWHERE\nk IN (7,8,9) ;" [] [] :=
  rfl

/-- C5: procedure compilation heads the call with `CALL ` when no return
parameter is designated and with `SET @returnName` -- the procedure name
following DIRECTLY, with no ` = ` -- otherwise; an `In` parameter emits
the literal `?` placeholder and binds its value, an `Out` parameter emits
`@name` and binds nothing, and with any output a trailing
`SELECT @name; ` line is appended; the one-`In`-one-`Out` call binds
exactly one argument.  (Amended: the spec sentence claims the prefix
`SET @returnName =`.) -/
theorem C5_procedure_call (nm pIn pOut : String) (v ov : GoValue)
    (hn : nm ≠ "") :
    compileProcedure (some (.mk nm [.mk pIn Dir.din v, .mk pOut Dir.dout ov]))
      = .ok ("CALL " ++ nm ++ " ( " ++ "?" ++ ", " ++ "@" ++ pOut ++ " );"
          ++ "\nSELECT " ++ "@" ++ pOut ++ "; ") [v] [] ∧
    (∀ (rn : String) (rv : GoValue), rn ≠ "" →
      compileProcedure (some (.mk nm [.mk rn Dir.dret rv]))
        = .ok ("SET @" ++ rn ++ nm ++ " ( " ++ " );" ++ "\nSELECT "
            ++ "@" ++ rn ++ "; ") [] []) := by
  constructor
  · (simp [compileProcedure, hn, ProcE.ReturnParameterName, List.find?,
      procPrelude, procArgLoop, procOutVars, ParamE.IsOut,
      String.append_assoc]) <;>
      (apply String.ext; simp only [String.data_append]; rfl)
  · intro rn rv hrn
    (simp [compileProcedure, hn, hrn, ProcE.ReturnParameterName, List.find?,
      procPrelude, procArgLoop, procOutVars, ParamE.IsOut,
      String.append_assoc]) <;>
      (apply String.ext; simp only [String.data_append]; rfl)

/-- Witness for C5 at a concrete procedure with one `In` and one `Out`
parameter, plus the return-parameter head at a concrete name. -/
theorem C5_procedure_call_witness :
    compileProcedure (some (.mk "myproc"
        [.mk "a" Dir.din (.vInt 7), .mk "o" Dir.dout .vNil]))
      = .ok ("CALL " ++ "myproc" ++ " ( " ++ "?" ++ ", " ++ "@" ++ "o"
          ++ " );" ++ "\nSELECT " ++ "@" ++ "o" ++ "; ") [.vInt 7] [] ∧
    compileProcedure (some (.mk "myproc" [.mk "r" Dir.dret .vNil]))
      = .ok ("SET @" ++ "r" ++ "myproc" ++ " ( " ++ " );" ++ "\nSELECT "
          ++ "@" ++ "r" ++ "; ") [] [] := by
  have h := C5_procedure_call "myproc" "a" "o" (.vInt 7) .vNil (by decide)
  exact ⟨h.1, h.2 "r" .vNil (by decide)⟩

/-- Counterexample to the unamended C5 sentence: with designated return
parameter `r` the generated query is `SET @rmyproc (  ); ...` -- the
procedure name follows `SET @r` immediately, there is no ` = ` -- so the
claimed prefix `SET @r =` is absent. -/
theorem C5_procedure_call_counterexample :
    ProcE.ReturnParameterName (.mk "myproc" [.mk "r" Dir.dret .vNil]) = "r" ∧
    compileProcedure (some (.mk "myproc" [.mk "r" Dir.dret .vNil]))
      = .ok "SET @rmyproc (  );\nSELECT @r; " [] [] :=
  ⟨rfl, rfl⟩

/-- C6: the template `select * from t where c > \x7bp\x7d` with `p = 1`
compiles to the source with the placeholder substituted -- under ANSI the
token is the three characters ` ? ` (the spec sentence shows a bare `?`,
so the actual query has two spaces before the question mark and one
after), under PostgreSQL it is `$1` -- with argument list `[1]`; an
undeclared name fails with the unknown-parameter error naming it. -/
theorem C6_template_examples :
    compileText AnsiDialecter (some (.mk "select * from t where c > \x7bp\x7d"
        [("p", .vInt 1)]))
      = .ok "select * from t where c >  ? " [.vInt 1] [" ? "] ∧
    compileText PostgreSQLDialecter (some
        (.mk "select * from t where c > \x7bp\x7d" [("p", .vInt 1)]))
      = .ok "select * from t where c > $1" [.vInt 1] ["$1"] ∧
    compileText AnsiDialecter (some (.mk "select * from t where c > \x7bq\x7d"
        [("p", .vInt 1)]))
      = .err (.unknownParameter "q") :=
  ⟨rfl, rfl, rfl⟩

/-- Counterexample to the unamended C6 sentence: under ANSI the compiled
query is NOT `select * from t where c > ?`; the ANSI placeholder token
carries its surrounding spaces. -/
theorem C6_template_examples_counterexample :
    compileText AnsiDialecter (some (.mk "select * from t where c > \x7bp\x7d"
        [("p", .vInt 1)]))
      ≠ .ok "select * from t where c > ?" [.vInt 1] [" ? "] := by
  decide

/-- Outside a brace the scanner copies every character verbatim; with no
opening brace in the input it terminates successfully with the copied
text and the argument list and trace it started with. -/
theorem textScan_copy (d : Dialecter) (ps : List (String × GoValue)) :
    ∀ (cs acc : List Char) (buf : String) (pi : Nat) (as : List GoValue)
      (tr : List String), braceOpen ∉ cs →
      textScan d ps cs false acc buf pi as tr
        = .ok (String.mk (buf.data ++ cs)) as tr := by
  intro cs
  induction cs with
  | nil =>
    intro acc buf pi as tr h
    simp [textScan]
  | cons c rest ih =>
    intro acc buf pi as tr h
    have hc : ¬ c = braceOpen := by
      intro he
      exact h (he ▸ List.mem_cons_self c rest)
    simp only [textScan, if_neg hc]
    rw [ih acc (buf.push c) pi as tr (fun hm => h (List.mem_cons_of_mem c hm))]
    simp [String.push, List.append_assoc]

/-- C7: a template whose NON-EMPTY source contains no opening brace passes
through unchanged with an empty argument list.  (Amended: the empty
source string also contains no placeholder, yet it is rejected with the
nil-text error, so the spec sentence needs the non-emptiness side
condition.) -/
theorem C7_passthrough (d : Dialecter) (t : TextE) (hne : t.sql ≠ "")
    (hnb : braceOpen ∉ t.sql.data) :
    compileText d (some t) = .ok t.sql [] [] := by
  simp only [compileText]
  rw [if_neg hne]
  by_cases hps : t.parameters.isEmpty = true
  · rw [if_pos hps]
  · rw [if_neg hps, textScan_copy d t.parameters t.sql.data [] "" 1 [] [] hnb]
    exact rfl

/-- Witness for C7 at a concrete brace-free template. -/
theorem C7_passthrough_witness :
    ("select 1" ≠ "") ∧ braceOpen ∉ ("select 1" : String).data ∧
    compileText AnsiDialecter (some (.mk "select 1" [("p", .vInt 1)]))
      = .ok "select 1" [] [] :=
  ⟨by decide, by decide,
    C7_passthrough AnsiDialecter (.mk "select 1" [("p", .vInt 1)])
      (by decide) (by decide)⟩

/-- Counterexample to the unamended C7 sentence: the empty source contains
no placeholder, yet template compilation rejects it instead of passing it
through. -/
theorem C7_passthrough_counterexample :
    compileText AnsiDialecter (some (.mk "" [("p", .vInt 1)])) =
      .err .nilText :=
  rfl

/-- Inside a brace, if no closing brace remains the scanner consumes the
rest of the input and reports the malformed template. -/
theorem textScan_noclose (d : Dialecter) (ps : List (String × GoValue)) :
    ∀ (cs acc : List Char) (buf : String) (pi : Nat) (as : List GoValue)
      (tr : List String), braceClose ∉ cs →
      textScan d ps cs true acc buf pi as tr = .err .malformedTemplate := by
  intro cs
  induction cs with
  | nil =>
    intro acc buf pi as tr h
    simp [textScan]
  | cons c rest ih =>
    intro acc buf pi as tr h
    have hc : ¬ c = braceClose := by
      intro he
      exact h (he ▸ List.mem_cons_self c rest)
    simp only [textScan, if_neg hc]
    exact ih _ _ _ _ _ (fun hm => h (List.mem_cons_of_mem c hm))

/-- An opening brace with no closing brace anywhere after the scan start
drives the scanner into the in-brace state and then into the malformed
error. -/
theorem textScan_unmatched (d : Dialecter) (ps : List (String × GoValue)) :
    ∀ (cs acc : List Char) (buf : String) (pi : Nat) (as : List GoValue)
      (tr : List String), braceOpen ∈ cs → braceClose ∉ cs →
      textScan d ps cs false acc buf pi as tr = .err .malformedTemplate := by
  intro cs
  induction cs with
  | nil =>
    intro acc buf pi as tr ho hc
    simp at ho
  | cons c rest ih =>
    intro acc buf pi as tr ho hc
    by_cases hco : c = braceOpen
    · simp only [textScan, if_pos hco]
      exact textScan_noclose d ps rest [] buf pi as tr
        (fun hm => hc (List.mem_cons_of_mem c hm))
    · simp only [textScan, if_neg hco]
      have ho2 : braceOpen ∈ rest := by
        rcases List.mem_cons.mp ho with he | hm
        · exact absurd he.symm hco
        · exact hm
      exact ih _ _ _ _ _ ho2 (fun hm => hc (List.mem_cons_of_mem c hm))

/-- C8: a template with a NON-EMPTY parameter map whose source contains an
opening brace but no closing brace at all fails with the malformed
template error.  (Amended: with an empty parameter map the source --
unterminated brace and all -- passes through unchanged, so the spec
sentence needs the non-empty-map side condition.) -/
theorem C8_unterminated_brace (d : Dialecter) (t : TextE) (hne : t.sql ≠ "")
    (hps : ¬ t.parameters.isEmpty = true) (ho : braceOpen ∈ t.sql.data)
    (hc : braceClose ∉ t.sql.data) :
    compileText d (some t) = .err .malformedTemplate := by
  simp only [compileText]
  rw [if_neg hne, if_neg hps]
  exact textScan_unmatched d t.parameters t.sql.data [] "" 1 [] [] ho hc

/-- Witness for C8 at a concrete unterminated template. -/
theorem C8_unterminated_brace_witness :
    ("select \x7bp" ≠ "") ∧ braceOpen ∈ ("select \x7bp" : String).data ∧
    braceClose ∉ ("select \x7bp" : String).data ∧
    compileText AnsiDialecter (some (.mk "select \x7bp" [("p", .vInt 1)]))
      = .err .malformedTemplate :=
  ⟨by decide, by decide, by decide,
    C8_unterminated_brace AnsiDialecter (.mk "select \x7bp" [("p", .vInt 1)])
      (by decide) (by decide) (by decide) (by decide)⟩

/-- Counterexample to the unamended C8 sentence: with an empty parameter
map the unterminated template passes through unchanged instead of failing
with the malformed-template error. -/
theorem C8_unterminated_brace_counterexample :
    compileText AnsiDialecter (some (.mk "select \x7bp" [])) =
      .ok "select \x7bp" [] [] :=
  rfl

/-- C10: a closing brace immediately after the opening one (`\x7b\x7d`)
is rejected as a malformed template -- the scanner demands at least one
accumulated byte before the close -- for EVERY dialect and non-empty
parameter map; a whitespace-only placeholder such as `\x7b \x7d` is
instead trimmed to the empty name and looked up, failing as an unknown
parameter when the empty name is not bound.  (Amended: with an empty
parameter map the template is never scanned and passes through.) -/
theorem C10_brace_pair (d : Dialecter) (ps : List (String × GoValue))
    (hps : ¬ ps.isEmpty = true) :
    compileText d (some (.mk "a\x7b\x7db" ps)) = .err .malformedTemplate ∧
    compileText AnsiDialecter (some (.mk "a\x7b \x7db" [("q", .vInt 2)]))
      = .err (.unknownParameter "") := by
  refine ⟨?_, by exact rfl⟩
  simp only [compileText]
  rw [if_neg (by decide), if_neg hps]
  exact rfl

/-- Witness for C10 at a concrete one-entry parameter map. -/
theorem C10_brace_pair_witness :
    ¬ ([("p", GoValue.vInt 1)] : List (String × GoValue)).isEmpty = true ∧
    compileText AnsiDialecter (some (.mk "a\x7b\x7db" [("p", .vInt 1)]))
      = .err .malformedTemplate ∧
    compileText AnsiDialecter (some (.mk "a\x7b \x7db" [("q", .vInt 2)]))
      = .err (.unknownParameter "") :=
  ⟨by decide,
    (C10_brace_pair AnsiDialecter [("p", GoValue.vInt 1)] (by decide)).1,
    (C10_brace_pair AnsiDialecter [("p", GoValue.vInt 1)] (by decide)).2⟩

/-- Counterexample to the unamended C10 sentence: with an empty parameter
map the `\x7b\x7d` template passes through unchanged instead of failing. -/
theorem C10_brace_pair_counterexample :
    compileText AnsiDialecter (some (.mk "a\x7b\x7db" [])) =
      .ok "a\x7b\x7db" [] [] :=
  rfl

/-- A successful `finish` exposes the final state: no panic, and the
query, arguments and trace are the state fields. -/
theorem finish_ok (st : St) (q : String) (a : List GoValue)
    (tr : List String) (h : finish st = .ok q a tr) :
    st.panicked = none ∧ q = st.w ∧ a = st.args ∧ tr = st.trace := by
  unfold finish at h
  rcases hp : st.panicked with _ | m
  · rw [hp] at h
    injection h with h1 h2 h3
    exact ⟨rfl, h1.symm, h2.symm, h3.symm⟩
  · rw [hp] at h
    simp at h

/-- One placeholder. -/
theorem phL_one (d : Dialecter) (i : Nat) : phL d i 1 = [phAt d i] := by
  simp [phL, List.range_succ]

/-- The trace of the statement compiler is always the consecutive-placeholder
list from counter 0: the bare token repeated in positional mode, token
plus 1, 2, 3, ... in named OR indexed mode (`writeValue` treats the two
identically). -/
theorem SCCompile_trace (d : Dialecter) (oe : Option Exp) (q : String)
    (a : List GoValue) (tr : List String)
    (hok : StatementCompiler.Compile d oe = .ok q a tr) :
    tr = phL d 0 tr.length := by
  rcases oe with _ | e
  · simp [StatementCompiler.Compile] at hok
  · cases e
    case query q1 =>
      simp only [StatementCompiler.Compile] at hok
      obtain ⟨hpan, hq, ha, ht⟩ := finish_ok _ _ _ _ hok
      obtain ⟨_, _, _, _, _, _, _, _, _, _, _, _, _, _, _, _, _, _, _, _, _,
        _, _, h, _, _, _, _, _⟩ := evolve (szE (.query q1))
      obtain ⟨s, l, k, hd, hw, harg, htr, hpi⟩ := h q1 (stInit d)
      rw [ht, htr]
      simp [stInit, phL_length]
    case update u1 =>
      simp only [StatementCompiler.Compile] at hok
      obtain ⟨hpan, hq, ha, ht⟩ := finish_ok _ _ _ _ hok
      obtain ⟨_, _, _, _, _, _, _, _, _, _, _, _, _, _, _, _, _, _, _, _, _,
        _, _, _, _, _, _, h, _⟩ := evolve (szE (.update u1))
      obtain ⟨s, l, k, hd, hw, harg, htr, hpi⟩ := h u1 (stInit d)
      rw [ht, htr]
      simp [stInit, phL_length]
    case insert i1 =>
      simp only [StatementCompiler.Compile] at hok
      obtain ⟨hpan, hq, ha, ht⟩ := finish_ok _ _ _ _ hok
      obtain ⟨_, _, _, _, _, _, _, _, _, _, _, _, _, _, _, _, _, _, _, _, _,
        _, _, _, _, h, _, _, _⟩ := evolve (szE (.insert i1))
      obtain ⟨s, l, k, hd, hw, harg, htr, hpi⟩ := h i1 (stInit d)
      rw [ht, htr]
      simp [stInit, phL_length]
    case delete d1 =>
      simp only [StatementCompiler.Compile] at hok
      obtain ⟨hpan, hq, ha, ht⟩ := finish_ok _ _ _ _ hok
      obtain ⟨_, _, _, _, _, _, _, _, _, _, _, _, _, _, _, _, _, _, _, _, _,
        _, _, _, _, _, _, _, h⟩ := evolve (szE (.delete d1))
      obtain ⟨s, l, k, hd, hw, harg, htr, hpi⟩ := h d1 (stInit d)
      rw [ht, htr]
      simp [stInit, phL_length]
    all_goals simp [StatementCompiler.Compile] at hok

/-- In positional or indexed mode (anything but named), the trace of the
scanner extends by consecutive placeholders from the current counter: entry
counter `pi` corresponds to placeholder position `pi - 1` (the counter
starts at 1). -/
theorem textScan_trace_nonnamed (d : Dialecter) (ps : List (String × GoValue))
    (hm : modeOf d ≠ 1) :
    ∀ (cs : List Char) (inB : Bool) (acc : List Char) (buf : String)
      (pi : Nat) (as : List GoValue) (tr : List String) (q : String)
      (a : List GoValue) (tr2 : List String), 1 ≤ pi →
      textScan d ps cs inB acc buf pi as tr = .ok q a tr2 →
      ∃ k, tr2 = tr ++ phL d (pi - 1) k := by
  intro cs
  induction cs with
  | nil =>
    intro inB acc buf pi as tr q a tr2 hpi hok
    cases inB
    · simp only [textScan] at hok
      injection hok with h1 h2 h3
      exact ⟨0, by rw [← h3, phL_zero, List.append_nil]⟩
    · simp [textScan] at hok
  | cons c rest ih =>
    intro inB acc buf pi as tr q a tr2 hpi hok
    cases inB
    · simp only [textScan] at hok
      split at hok
      · exact ih true [] buf pi as tr q a tr2 hpi hok
      · exact ih false acc (buf.push c) pi as tr q a tr2 hpi hok
    · simp only [textScan] at hok
      split at hok
      · split at hok
        · exact absurd hok (by intro h; exact CompRes.noConfusion h)
        · rcases hfp : findParameter ps (strTrim (String.mk acc))
            with _ | v
          · rw [hfp] at hok
            exact absurd hok (by intro h; exact CompRes.noConfusion h)
          · rw [hfp] at hok
            rcases hmode : modeOf d with _ | _ | m
            · rw [hmode] at hok
              obtain ⟨k, hk⟩ := ih false [] (buf ++ d.placeHolder) pi
                (as ++ [v]) (tr ++ [d.placeHolder]) q a tr2 hpi hok
              refine ⟨1 + k, ?_⟩
              have h1 : phAt d (pi - 1) = d.placeHolder := by
                simp [phAt, hmode]
              have h2 : bump d (pi - 1) 1 = pi - 1 := by
                simp [bump, hmode]
              rw [hk, ← phL_comp d (pi - 1) 1 k, phL_one, h1, h2,
                List.append_assoc]
            · exact absurd hmode hm
            · rw [hmode] at hok
              obtain ⟨k, hk⟩ := ih false []
                (buf ++ d.placeHolder ++ toString pi) (pi + 1) (as ++ [v])
                (tr ++ [d.placeHolder ++ toString pi]) q a tr2 (by omega) hok
              refine ⟨1 + k, ?_⟩
              have h1 : phAt d (pi - 1) = d.placeHolder ++ toString pi := by
                simp only [phAt, hmode]
                rw [if_neg (by omega), show pi - 1 + 1 = pi from by omega]
              have h2 : bump d (pi - 1) 1 = pi := by
                simp only [bump]
                rw [if_neg (by omega)]
                omega
              have h3 : pi + 1 - 1 = pi := by omega
              rw [h3] at hk
              rw [hk, ← phL_comp d (pi - 1) 1 k, phL_one, h1, h2,
                List.append_assoc]
      · exact ih true (acc ++ [c]) buf pi as tr q a tr2 hpi hok

/-- In named mode every trace entry the scanner adds is the dialect token
followed by a parameter name that is bound in the map. -/
theorem textScan_trace_named (d : Dialecter) (ps : List (String × GoValue))
    (hm : modeOf d = 1) :
    ∀ (cs : List Char) (inB : Bool) (acc : List Char) (buf : String)
      (pi : Nat) (as : List GoValue) (tr : List String) (q : String)
      (a : List GoValue) (tr2 : List String),
      textScan d ps cs inB acc buf pi as tr = .ok q a tr2 →
      ∀ s ∈ tr2, s ∈ tr ∨ ∃ nm v, findParameter ps nm = some v ∧
        s = d.placeHolder ++ nm := by
  intro cs
  induction cs with
  | nil =>
    intro inB acc buf pi as tr q a tr2 hok
    cases inB
    · simp only [textScan] at hok
      injection hok with h1 h2 h3
      intro s hs
      exact Or.inl (h3 ▸ hs)
    · simp [textScan] at hok
  | cons c rest ih =>
    intro inB acc buf pi as tr q a tr2 hok
    cases inB
    · simp only [textScan] at hok
      split at hok
      · exact ih true [] buf pi as tr q a tr2 hok
      · exact ih false acc (buf.push c) pi as tr q a tr2 hok
    · simp only [textScan] at hok
      split at hok
      · split at hok
        · exact absurd hok (by intro h; exact CompRes.noConfusion h)
        · rcases hfp : findParameter ps (strTrim (String.mk acc))
            with _ | v
          · rw [hfp] at hok
            exact absurd hok (by intro h; exact CompRes.noConfusion h)
          · rw [hfp] at hok
            rw [hm] at hok
            intro s hs
            have hmem := ih false []
              (buf ++ d.placeHolder ++ strTrim (String.mk acc)) pi
              (as ++ [v])
              (tr ++ [d.placeHolder ++ strTrim (String.mk acc)]) q a tr2
              hok s hs
            rcases hmem with hin | hex
            · rcases List.mem_append.mp hin with h1 | h2
              · exact Or.inl h1
              · right
                refine ⟨strTrim (String.mk acc), v, hfp, ?_⟩
                simpa using h2
            · exact Or.inr hex
      · exact ih true (acc ++ [c]) buf pi as tr q a tr2 hok

/-- C2: placeholder form is a function of the dialect alone, named support
taking priority over indexed.  For STATEMENT compilation the trace is
always the consecutive-placeholder list from counter 0 -- the bare token
repeated in positional mode and token plus 1, 2, 3, ... in named OR
indexed mode (the Go mode-1 and mode-2 branches of `writeValue` are
textually identical, so a named dialect gets token+index, NOT token+name
as the spec sentence claims).  For TEMPLATE compilation a non-named
dialect likewise yields the consecutive list from 0, while a named
dialect emits the token followed by a parameter name bound in the map. -/
theorem C2_placeholder_modes (d : Dialecter) :
    (∀ oe q a tr, StatementCompiler.Compile d oe = .ok q a tr →
      tr = phL d 0 tr.length) ∧
    (∀ t q a tr, compileText d (some t) = .ok q a tr →
      (modeOf d ≠ 1 → tr = phL d 0 tr.length) ∧
      (modeOf d = 1 → ∀ s ∈ tr, ∃ nm v,
        findParameter t.parameters nm = some v ∧
        s = d.placeHolder ++ nm)) := by
  constructor
  · intro oe q a tr hok
    exact SCCompile_trace d oe q a tr hok
  · intro t q a tr hok
    simp only [compileText] at hok
    split at hok
    · exact absurd hok (by intro h; exact CompRes.noConfusion h)
    · split at hok
      · injection hok with h1 h2 h3
        constructor
        · intro _
          rw [← h3]
          simp [phL_zero]
        · intro _ s hs
          rw [← h3] at hs
          simp at hs
      · constructor
        · intro hmn
          obtain ⟨k, hk⟩ := textScan_trace_nonnamed d t.parameters hmn
            t.sql.data false [] "" 1 [] [] q a tr (by omega) hok
          rw [hk]
          simp [phL_length]
        · intro hm1 s hs
          have hmem := textScan_trace_named d t.parameters hm1 t.sql.data
            false [] "" 1 [] [] q a tr hok s hs
          rcases hmem with hin | hex
          · simp at hin
          · exact hex

/-- Witness for C2: a PostgreSQL (indexed) statement compile whose trace
is the one-element consecutive list, and an ANSI (positional) template
compile whose trace is the repeated bare token. -/
theorem C2_placeholder_modes_witness :
    StatementCompiler.Compile PostgreSQLDialecter (some (.update (.mk "t"
        [.mk "c" (some (.value (.vInt 5)))] none none 0)))
      = .ok "UPDATE t SET \nc=$1;" [.vInt 5] ["$1"] ∧
    ["$1"] = phL PostgreSQLDialecter 0 (["$1"].length) ∧
    [" ? "] = phL AnsiDialecter 0 ([" ? "].length) :=
  ⟨rfl,
    (C2_placeholder_modes PostgreSQLDialecter).1
      (some (.update (.mk "t" [.mk "c" (some (.value (.vInt 5)))] none
        none 0))) "UPDATE t SET \nc=$1;" [.vInt 5] ["$1"] rfl,
    ((C2_placeholder_modes AnsiDialecter).2
      (.mk "select * from t where c > \x7bp\x7d" [("p", .vInt 1)])
      "select * from t where c >  ? " [.vInt 1] [" ? "] rfl).1
      (by decide)⟩

/-- Counterexample to the unamended C2 sentence: under a named dialect
(token `@`) the statement compiler emits the placeholder `@1` -- the
token followed by the running INDEX, not by any parameter name (a literal
`Value` leaf carries no name at all). -/
theorem C2_placeholder_modes_counterexample :
    NamedTestDialecter.supportNamed = true ∧
    StatementCompiler.Compile NamedTestDialecter (some (.update (.mk "t"
        [.mk "c" (some (.value (.vInt 5)))] none none 0)))
      = .ok "UPDATE t SET \nc=@1;" [.vInt 5] ["@1"] :=
  ⟨rfl, rfl⟩

/-- `evolve` projected to `visitSelectO`. -/
theorem extSelO (f : Nat) (s : Option SelectE) (a : St) :
    StExt a (visitSelectO f s a) := by
  obtain ⟨_, _, _, _, _, _, _, _, _, _, _, _, _, _, _, _, _, h9, _, _, _, _, _, _, _, _, _, _, _⟩ := evolve f
  exact h9 s a

/-- `evolve` projected to `visitFromO`. -/
theorem extFromO (f : Nat) (fr : Option FromE) (a : St) :
    StExt a (visitFromO f fr a) := by
  obtain ⟨_, _, _, _, _, _, _, _, _, _, _, _, _, _, _, _, _, _, h9, _, _, _, _, _, _, _, _, _, _⟩ := evolve f
  exact h9 fr a

/-- `evolve` projected to `visitWhereO`. -/
theorem extWhereO (f : Nat) (w : Option WhereE) (a : St) :
    StExt a (visitWhereO f w a) := by
  obtain ⟨_, _, _, _, _, _, _, _, _, _, _, _, _, _, _, _, _, _, _, h9, _, _, _, _, _, _, _, _, _⟩ := evolve f
  exact h9 w a

/-- `evolve` projected to `visitGroupByO`. -/
theorem extGbO (f : Nat) (g : Option GroupByE) (a : St) :
    StExt a (visitGroupByO f g a) := by
  obtain ⟨_, _, _, _, _, _, _, _, _, _, _, _, _, _, _, _, _, _, _, _, h9, _, _, _, _, _, _, _, _⟩ := evolve f
  exact h9 g a

/-- `evolve` projected to `visitHavingO`. -/
theorem extHavO (f : Nat) (h : Option HavingE) (a : St) :
    StExt a (visitHavingO f h a) := by
  obtain ⟨_, _, _, _, _, _, _, _, _, _, _, _, _, _, _, _, _, _, _, _, _, h9, _, _, _, _, _, _, _⟩ := evolve f
  exact h9 h a

/-- `evolve` projected to `visitOrderByO`. -/
theorem extObO (f : Nat) (o : Option OrderByE) (a : St) :
    StExt a (visitOrderByO f o a) := by
  obtain ⟨_, _, _, _, _, _, _, _, _, _, _, _, _, _, _, _, _, _, _, _, _, _, h9, _, _, _, _, _, _⟩ := evolve f
  exact h9 o a

/-- `evolve` projected to `condLoop`. -/
theorem extCondLoop (f : Nat) (cs : List (Option Exp)) (i : Nat) (dp : Int)
    (a : St) :
    StExt a (condLoop f cs i dp a) := by
  obtain ⟨_, _, _, _, _, _, _, _, _, _, h9, _, _, _, _, _, _, _, _, _, _, _, _, _, _, _, _, _, _⟩ := evolve f
  exact h9 cs i dp a

/-- `argsAll` projected to `visitSelectO`. -/
theorem argsSelO (f : Nat) (s : Option SelectE) (hsz : szOSel s < f)
    (hs : asSelO f s = true) (a : St) (hp : a.panicked = none) :
    (visitSelectO f s a).args = a.args ++ preVSelO f s ∧
    (visitSelectO f s a).panicked = none := by
  obtain ⟨_, _, _, _, _, _, _, _, _, _, _, _, _, _, _, _, _, h9, _, _, _, _, _, _, _, _, _, _, _⟩ := argsAll f
  exact h9 s hsz hs a hp

/-- `argsAll` projected to `visitFromO`. -/
theorem argsFromO (f : Nat) (fr : Option FromE) (hsz : szOFrom fr < f)
    (hs : asFromO f fr = true) (a : St) (hp : a.panicked = none) :
    (visitFromO f fr a).args = a.args ++ preVFromO f fr ∧
    (visitFromO f fr a).panicked = none := by
  obtain ⟨_, _, _, _, _, _, _, _, _, _, _, _, _, _, _, _, _, _, h9, _, _, _, _, _, _, _, _, _, _⟩ := argsAll f
  exact h9 fr hsz hs a hp

/-- `argsAll` projected to `visitWhereO`. -/
theorem argsWhereO (f : Nat) (w : Option WhereE) (hsz : szOW w < f)
    (hs : asWhereO f w = true) (a : St) (hp : a.panicked = none) :
    (visitWhereO f w a).args = a.args ++ preVWhereO f w ∧
    (visitWhereO f w a).panicked = none := by
  obtain ⟨_, _, _, _, _, _, _, _, _, _, _, _, _, _, _, _, _, _, _, h9, _, _, _, _, _, _, _, _, _⟩ := argsAll f
  exact h9 w hsz hs a hp

/-- `argsAll` projected to `visitGroupByO`. -/
theorem argsGbO (f : Nat) (g : Option GroupByE) (hsz : szOG g < f)
    (hs : asGbO f g = true) (a : St) (hp : a.panicked = none) :
    (visitGroupByO f g a).args = a.args ++ preVGbO f g ∧
    (visitGroupByO f g a).panicked = none := by
  obtain ⟨_, _, _, _, _, _, _, _, _, _, _, _, _, _, _, _, _, _, _, _, h9, _, _, _, _, _, _, _, _⟩ := argsAll f
  exact h9 g hsz hs a hp

/-- `argsAll` projected to `visitHavingO`. -/
theorem argsHavO (f : Nat) (h : Option HavingE) (hsz : szOH h < f)
    (hs : asHavO f h = true) (a : St) (hp : a.panicked = none) :
    (visitHavingO f h a).args = a.args ++ preVHavO f h ∧
    (visitHavingO f h a).panicked = none := by
  obtain ⟨_, _, _, _, _, _, _, _, _, _, _, _, _, _, _, _, _, _, _, _, _, h9, _, _, _, _, _, _, _⟩ := argsAll f
  exact h9 h hsz hs a hp

/-- `argsAll` projected to `visitOrderByO`. -/
theorem argsObO (f : Nat) (o : Option OrderByE) (hsz : szOOB o < f)
    (hs : asObO f o = true) (a : St) (hp : a.panicked = none) :
    (visitOrderByO f o a).args = a.args ++ preVObO f o ∧
    (visitOrderByO f o a).panicked = none := by
  obtain ⟨_, _, _, _, _, _, _, _, _, _, _, _, _, _, _, _, _, _, _, _, _, _, h9, _, _, _, _, _, _⟩ := argsAll f
  exact h9 o hsz hs a hp

/-- A nil or condition-free having clause writes nothing (given fuel). -/
theorem visitHavingO_empty (f : Nat) (hav : Option HavingE) (hf : 2 ≤ f)
    (he : havEmptyGuard hav = true) (st : St) :
    visitHavingO f hav st = st := by
  obtain ⟨g, rfl⟩ : ∃ g, f = g + 2 := ⟨f - 2, by omega⟩
  rcases hav with _ | ⟨⟨_ | ⟨c, cs⟩⟩⟩
  · rfl
  · rfl
  · simp [havEmptyGuard] at he

/-- Appending on the right preserves non-emptiness of a string. -/
theorem data_append_left_ne (a b : String) (h : a.data ≠ []) :
    (a ++ b).data ≠ [] := by
  rw [String.data_append]
  intro he
  exact h (List.append_eq_nil.mp he).1

/-- A having-clause option weighs at least one fuel unit. -/
theorem szOH_pos (h : Option HavingE) : 1 ≤ szOH h := by
  cases h <;> simp [szOH]

/-- Writer state of `visitQuery` after the `SELECT [DISTINCT]` head. -/
def qs0 (dist : Bool) (st : St) : St :=
  if dist = true then
    (((st.wr ansi.Select).wr ansi.Blank).wr ansi.Distinct).wr ansi.Blank
  else (st.wr ansi.Select).wr ansi.Blank

/-- ... after the select list. -/
def qs1 (f : Nat) (dist : Bool) (sel : Option SelectE) (st : St) : St :=
  visitSelectO f sel (qs0 dist st)

/-- ... after the from clause. -/
def qs2 (f : Nat) (dist : Bool) (sel : Option SelectE) (frm : Option FromE)
    (st : St) : St :=
  visitFromO f frm (qs1 f dist sel st)

/-- ... after the where clause. -/
def qs3 (f : Nat) (dist : Bool) (sel : Option SelectE) (frm : Option FromE)
    (whr : Option WhereE) (st : St) : St :=
  visitWhereO f whr (qs2 f dist sel frm st)

/-- ... after the group-by clause. -/
def qs4 (f : Nat) (dist : Bool) (sel : Option SelectE) (frm : Option FromE)
    (whr : Option WhereE) (grp : Option GroupByE) (st : St) : St :=
  visitGroupByO f grp (qs3 f dist sel frm whr st)

/-- ... after the conditional having clause (visited only when the
group-by clause is present and non-empty). -/
def qs5 (f : Nat) (dist : Bool) (sel : Option SelectE) (frm : Option FromE)
    (whr : Option WhereE) (grp : Option GroupByE) (hav : Option HavingE)
    (st : St) : St :=
  if grpActive grp = true then
    visitHavingO f hav (qs4 f dist sel frm whr grp st)
  else qs4 f dist sel frm whr grp st

/-- ... after the order-by clause. -/
def qs6 (f : Nat) (dist : Bool) (sel : Option SelectE) (frm : Option FromE)
    (whr : Option WhereE) (grp : Option GroupByE) (hav : Option HavingE)
    (ord : Option OrderByE) (st : St) : St :=
  visitOrderByO f ord (qs5 f dist sel frm whr grp hav st)

/-- `visitQuery` is the stage chain followed by the conditional limit
clause and the statement terminator. -/
theorem visitQuery_stages (f : Nat) (dist : Bool) (sel : Option SelectE)
    (frm : Option FromE) (whr : Option WhereE) (grp : Option GroupByE)
    (hav : Option HavingE) (ord : Option OrderByE) (off cnt : Int)
    (st : St) :
    visitQuery (f + 1) (.mk dist sel frm whr grp hav ord off cnt) st
      = (if off > 0 ∨ cnt > 0 then
           ((qs6 f dist sel frm whr grp hav ord st).wr ansi.LineBreak).wr
             (ansi.Limit ++ " " ++ toString off ++ "," ++ toString cnt)
         else qs6 f dist sel frm whr grp hav ord st).wr
          ansi.StatementSplit :=
  rfl

set_option maxHeartbeats 1000000 in
/-- C9: on safe input the compiled query emits its clauses in the order
`SELECT [DISTINCT]`, select list, from, where, group-by, having,
order-by -- each stage only appends -- then the row-limiting clause
`LIMIT offset,count` if and only if `Offset > 0 or Count > 0`, then the
statement terminator.  The having segment is non-empty IF AND ONLY IF the
group-by clause is present and non-empty AND the having clause itself has
conditions.  (Amended: the spec sentence claims HAVING is emitted exactly
when group-by is present and non-empty; a nil or condition-free having
clause under an active group-by emits nothing.) -/
theorem C9_clause_order (f : Nat) (dist : Bool) (sel : Option SelectE)
    (frm : Option FromE) (whr : Option WhereE) (grp : Option GroupByE)
    (hav : Option HavingE) (ord : Option OrderByE) (off cnt : Int) (st : St)
    (hsz : szQ (.mk dist sel frm whr grp hav ord off cnt) < f + 1)
    (hsafe : asQuery (f + 1) (.mk dist sel frm whr grp hav ord off cnt)
      = true)
    (hp : st.panicked = none) :
    ∃ s1 s2 s3 s4 s5 s6,
      (qs0 dist st).w
        = st.w ++ ansi.Select ++ ansi.Blank
          ++ (if dist = true then ansi.Distinct ++ ansi.Blank else "") ∧
      (qs1 f dist sel st).w = (qs0 dist st).w ++ s1 ∧
      (qs2 f dist sel frm st).w = (qs1 f dist sel st).w ++ s2 ∧
      (qs3 f dist sel frm whr st).w = (qs2 f dist sel frm st).w ++ s3 ∧
      (qs4 f dist sel frm whr grp st).w
        = (qs3 f dist sel frm whr st).w ++ s4 ∧
      (qs5 f dist sel frm whr grp hav st).w
        = (qs4 f dist sel frm whr grp st).w ++ s5 ∧
      (qs6 f dist sel frm whr grp hav ord st).w
        = (qs5 f dist sel frm whr grp hav st).w ++ s6 ∧
      (visitQuery (f + 1) (.mk dist sel frm whr grp hav ord off cnt) st).w
        = (qs0 dist st).w ++ s1 ++ s2 ++ s3 ++ s4 ++ s5 ++ s6
          ++ (if off > 0 ∨ cnt > 0 then
                ansi.LineBreak ++ ansi.Limit ++ " " ++ toString off ++ ","
                  ++ toString cnt
              else "")
          ++ ansi.StatementSplit ∧
      (s5 = "" ↔ ¬(grpActive grp = true ∧ havEmptyGuard hav = false)) := by
  simp only [asQuery, Bool.and_eq_true] at hsafe
  obtain ⟨⟨⟨⟨⟨⟨hg, hs1⟩, hs2⟩, hs3⟩, hs4⟩, hs5⟩, hs6⟩ := hsafe
  simp only [szQ] at hsz
  have hp0 : (qs0 dist st).panicked = none := by
    unfold qs0
    split <;> simp [wr_panicked, hp]
  have h1 := argsSelO f sel (by omega) hs1 (qs0 dist st) hp0
  have hp1 : (qs1 f dist sel st).panicked = none := h1.2
  have h2 := argsFromO f frm (by omega) hs2 (qs1 f dist sel st) hp1
  have hp2 : (qs2 f dist sel frm st).panicked = none := h2.2
  have h3 := argsWhereO f whr (by omega) hs3 (qs2 f dist sel frm st) hp2
  have hp3 : (qs3 f dist sel frm whr st).panicked = none := h3.2
  have h4 := argsGbO f grp (by omega) hs4 (qs3 f dist sel frm whr st) hp3
  have hp4 : (qs4 f dist sel frm whr grp st).panicked = none := h4.2
  have hp5 : (qs5 f dist sel frm whr grp hav st).panicked = none := by
    unfold qs5
    split
    · exact (argsHavO f hav (by omega) hs5 _ hp4).2
    · exact hp4
  have h6 := argsObO f ord (by omega) hs6
    (qs5 f dist sel frm whr grp hav st) hp5
  have hp6 : (qs6 f dist sel frm whr grp hav ord st).panicked = none := h6.2
  have h0w : (qs0 dist st).w
      = st.w ++ ansi.Select ++ ansi.Blank
        ++ (if dist = true then ansi.Distinct ++ ansi.Blank else "") := by
    unfold qs0
    by_cases hd : dist = true
    · rw [if_pos hd, if_pos hd]
      simp [St.wr, hp, String.append_assoc]
    · rw [if_neg hd, if_neg hd]
      simp [St.wr, hp, String.append_assoc]
  obtain ⟨s1v, l1v, k1v, _, hw1, _, _, _⟩ := extSelO f sel (qs0 dist st)
  have d1 : (qs1 f dist sel st).w = (qs0 dist st).w ++ s1v := hw1
  obtain ⟨s2v, l2v, k2v, _, hw2, _, _, _⟩ := extFromO f frm
    (qs1 f dist sel st)
  have d2 : (qs2 f dist sel frm st).w = (qs1 f dist sel st).w ++ s2v := hw2
  obtain ⟨s3v, l3v, k3v, _, hw3, _, _, _⟩ := extWhereO f whr
    (qs2 f dist sel frm st)
  have d3 : (qs3 f dist sel frm whr st).w
      = (qs2 f dist sel frm st).w ++ s3v := hw3
  obtain ⟨s4v, l4v, k4v, _, hw4, _, _, _⟩ := extGbO f grp
    (qs3 f dist sel frm whr st)
  have d4 : (qs4 f dist sel frm whr grp st).w
      = (qs3 f dist sel frm whr st).w ++ s4v := hw4
  obtain ⟨s6v, l6v, k6v, _, hw6, _, _, _⟩ := extObO f ord
    (qs5 f dist sel frm whr grp hav st)
  have d6 : (qs6 f dist sel frm whr grp hav ord st).w
      = (qs5 f dist sel frm whr grp hav st).w ++ s6v := hw6
  have hQw : (visitQuery (f + 1)
      (.mk dist sel frm whr grp hav ord off cnt) st).w
      = (qs6 f dist sel frm whr grp hav ord st).w
        ++ (if off > 0 ∨ cnt > 0 then
              ansi.LineBreak ++ ansi.Limit ++ " " ++ toString off ++ ","
                ++ toString cnt
            else "")
        ++ ansi.StatementSplit := by
    rw [visitQuery_stages]
    by_cases hlim : off > 0 ∨ cnt > 0
    · rw [if_pos hlim, if_pos hlim]
      rw [wr_w _ _ (by simp [wr_panicked, hp6]),
        wr_w _ _ (by simp [wr_panicked, hp6]), wr_w _ _ hp6]
      simp [String.append_assoc]
    · rw [if_neg hlim, if_neg hlim, wr_w _ _ hp6]
      simp [String.append_assoc]
  by_cases hga : grpActive grp = true
  · by_cases heg : havEmptyGuard hav = true
    · have hf2 : 2 ≤ f := by
        have := szOH_pos hav
        omega
      have d5 : (qs5 f dist sel frm whr grp hav st).w
          = (qs4 f dist sel frm whr grp st).w ++ "" := by
        unfold qs5
        rw [if_pos hga, visitHavingO_empty f hav hf2 heg]
        simp
      refine ⟨s1v, s2v, s3v, s4v, "", s6v, h0w, d1, d2, d3, d4, d5, d6,
        ?_, ?_⟩
      · rw [hQw, d6, d5, d4, d3, d2, d1]
      · simp [hga, heg]
    · rcases hav with _ | ⟨⟨_ | ⟨c0, cs0⟩⟩⟩
      · simp [havEmptyGuard] at heg
      · simp [havEmptyGuard] at heg
      · simp only [szOH, szH, szCL] at hsz
        obtain ⟨f2, rfl⟩ : ∃ f2, f = f2 + 2 := ⟨f - 2, by omega⟩
        have eHav : visitHavingO (f2 + 2) (some (.mk (c0 :: cs0)))
            (qs4 (f2 + 2) dist sel frm whr grp st)
            = (condLoop f2 (c0 :: cs0) 0 0
                ((qs4 (f2 + 2) dist sel frm whr grp st).wr
                  (ansi.LineBreak ++ ansi.Having ++ ansi.LineBreak))).wr
                ansi.Blank := rfl
        obtain ⟨sc, lc, kc, _, hwc, _, _, _⟩ := extCondLoop f2 (c0 :: cs0)
          0 0 ((qs4 (f2 + 2) dist sel frm whr grp st).wr
            (ansi.LineBreak ++ ansi.Having ++ ansi.LineBreak))
        have hpc : (condLoop f2 (c0 :: cs0) 0 0
            ((qs4 (f2 + 2) dist sel frm whr grp st).wr
              (ansi.LineBreak ++ ansi.Having ++ ansi.LineBreak))).panicked
            = none := by
          have h5p := (argsHavO (f2 + 2) (some (.mk (c0 :: cs0)))
            (by simp only [szOH, szH, szCL]; omega) hs5
            (qs4 (f2 + 2) dist sel frm whr grp st) hp4).2
          rw [eHav, wr_panicked] at h5p
          exact h5p
        have d5 : (qs5 (f2 + 2) dist sel frm whr grp
            (some (.mk (c0 :: cs0))) st).w
            = (qs4 (f2 + 2) dist sel frm whr grp st).w
              ++ (ansi.LineBreak ++ ansi.Having ++ ansi.LineBreak ++ sc
                ++ ansi.Blank) := by
          unfold qs5
          rw [if_pos hga, eHav, wr_w _ _ hpc, hwc, wr_w _ _ hp4]
          simp [String.append_assoc]
        refine ⟨s1v, s2v, s3v, s4v,
          ansi.LineBreak ++ ansi.Having ++ ansi.LineBreak ++ sc
            ++ ansi.Blank, s6v, h0w, d1, d2, d3, d4, d5, d6, ?_, ?_⟩
        · rw [hQw, d6, d5, d4, d3, d2, d1]
        · have hegf : havEmptyGuard (some (.mk (c0 :: cs0))) = false := by
            simp [havEmptyGuard]
          constructor
          · intro h0
            have hne : ((((ansi.LineBreak ++ ansi.Having) ++ ansi.LineBreak)
                ++ sc) ++ ansi.Blank).data ≠ [] :=
              data_append_left_ne _ _ (data_append_left_ne _ _
                (data_append_left_ne _ _ (data_append_left_ne _ _
                  (by decide))))
            exact absurd (congrArg String.data h0) hne
          · intro hn
            exact absurd ⟨hga, hegf⟩ hn
  · have d5 : (qs5 f dist sel frm whr grp hav st).w
        = (qs4 f dist sel frm whr grp st).w ++ "" := by
      unfold qs5
      rw [if_neg hga]
      simp
    refine ⟨s1v, s2v, s3v, s4v, "", s6v, h0w, d1, d2, d3, d4, d5, d6,
      ?_, ?_⟩
    · rw [hQw, d6, d5, d4, d3, d2, d1]
    · simp [hga]

/-- Witness for C9 at the spec example: `Offset=10, Count=5`, a single
table, no other clauses. -/
theorem C9_clause_order_witness :
    (szQ (.mk false none (some (.mk (some (.mk "t" "")) [] [])) none none
        none none 10 5) < 20 + 1 ∧
     asQuery (20 + 1) (.mk false none (some (.mk (some (.mk "t" "")) [] []))
        none none none none 10 5) = true ∧
     (stInit AnsiDialecter).panicked = none) ∧
    (∃ s1 s2 s3 s4 s5 s6,
      (qs0 false (stInit AnsiDialecter)).w
        = (stInit AnsiDialecter).w ++ ansi.Select ++ ansi.Blank
          ++ (if false = true then ansi.Distinct ++ ansi.Blank else "") ∧
      (qs1 20 false none (stInit AnsiDialecter)).w
        = (qs0 false (stInit AnsiDialecter)).w ++ s1 ∧
      (qs2 20 false none (some (.mk (some (.mk "t" "")) [] []))
          (stInit AnsiDialecter)).w
        = (qs1 20 false none (stInit AnsiDialecter)).w ++ s2 ∧
      (qs3 20 false none (some (.mk (some (.mk "t" "")) [] [])) none
          (stInit AnsiDialecter)).w
        = (qs2 20 false none (some (.mk (some (.mk "t" "")) [] []))
            (stInit AnsiDialecter)).w ++ s3 ∧
      (qs4 20 false none (some (.mk (some (.mk "t" "")) [] [])) none none
          (stInit AnsiDialecter)).w
        = (qs3 20 false none (some (.mk (some (.mk "t" "")) [] [])) none
            (stInit AnsiDialecter)).w ++ s4 ∧
      (qs5 20 false none (some (.mk (some (.mk "t" "")) [] [])) none none
          none (stInit AnsiDialecter)).w
        = (qs4 20 false none (some (.mk (some (.mk "t" "")) [] [])) none
            none (stInit AnsiDialecter)).w ++ s5 ∧
      (qs6 20 false none (some (.mk (some (.mk "t" "")) [] [])) none none
          none none (stInit AnsiDialecter)).w
        = (qs5 20 false none (some (.mk (some (.mk "t" "")) [] [])) none
            none none (stInit AnsiDialecter)).w ++ s6 ∧
      (visitQuery (20 + 1) (.mk false none
          (some (.mk (some (.mk "t" "")) [] [])) none none none none 10 5)
          (stInit AnsiDialecter)).w
        = (qs0 false (stInit AnsiDialecter)).w ++ s1 ++ s2 ++ s3 ++ s4
          ++ s5 ++ s6
          ++ (if (10 : Int) > 0 ∨ (5 : Int) > 0 then
                ansi.LineBreak ++ ansi.Limit ++ " " ++ toString (10 : Int)
                  ++ "," ++ toString (5 : Int)
              else "")
          ++ ansi.StatementSplit ∧
      (s5 = "" ↔ ¬(grpActive none = true ∧ havEmptyGuard none = false))) :=
  ⟨⟨by decide, by decide, rfl⟩,
    C9_clause_order 20 false none (some (.mk (some (.mk "t" "")) [] []))
      none none none none 10 5 (stInit AnsiDialecter) (by decide)
      (by decide) rfl⟩

/-- Counterexample to the unamended C9 sentence: group-by is present and
non-empty but the having clause is nil; the compiled statement contains
no `HAVING` at all (the output has no character `H` anywhere). -/
theorem C9_clause_order_counterexample :
    StatementCompiler.Compile AnsiDialecter (some (.query (.mk false none
        (some (.mk (some (.mk "t" "")) [] [])) none
        (some (.mk [some (.column "g")])) none none 10 5)))
      = .ok "SELECT *\nFROM t \nGROUP BY g \nLIMIT 10,5;" [] [] ∧
    (Char.ofNat 72)
      ∉ ("SELECT *\nFROM t \nGROUP BY g \nLIMIT 10,5;" : String).data :=
  ⟨rfl, by decide⟩
